import Mathlib

/-!
# allocstats: allocation accounting through the glibc allocator hooks

A shallow embedding of `allocstatsmodule.c`.  The module keeps one process-wide
`int` counter (`mem_usage_size`) guarded by one mutex, and installs three hook
functions (`mem_usage_malloc`, `mem_usage_realloc`, `mem_usage_free`) in glibc's
`__malloc_hook`, `__realloc_hook` and `__free_hook`.

The C library allocator is the environment of the module.  It is modelled by a
heap of live blocks together with an outcome that is supplied from outside for
every allocating call, so that every theorem holds for every outcome the real
allocator may produce.
-/

namespace AllocStats

/-! ## Pointers, function pointers and the heap -/

/-- Addresses.  `0` is the null pointer. -/
abbrev Ptr := Nat

/-- Identity of a function pointer that can sit in one of the allocator hook
variables: one of the three functions of this module, or any other
implementation (`std tag`: glibc's own initial hook value, a null hook, another
library's hook, ...).  A call through a `std` pointer reaches the C library
allocator without any accounting. -/
inductive FnPtr where
  | std (tag : Nat)
  | mem_usage_malloc
  | mem_usage_realloc
  | mem_usage_free
  deriving DecidableEq, Repr

/-- The live blocks of the C library heap: address and usable size of each.
The entry nearest the head is the one in force for an address. -/
abbrev Heap := List (Ptr × Nat)

/-- The heap after a block of usable size `usable` came to life at `p`. -/
def Heap.insert (h : Heap) (p : Ptr) (usable : Nat) : Heap := (p, usable) :: h

/-- The heap after the block at `p` was given back. -/
def Heap.erase (h : Heap) (p : Ptr) : Heap := h.filter (fun b => b.1 != p)

/-- Usable size of the live block at `p`, if there is one. -/
def Heap.usable? (h : Heap) (p : Ptr) : Option Nat := h.lookup p

/-- C library `malloc_usable_size(p)`: `0` for the null pointer, the usable size
of the block otherwise (`0` is also the model's answer for an address that has
no live block, where the C library gives no guarantee). -/
def malloc_usable_size (h : Heap) (p : Ptr) : Nat :=
  if p = 0 then 0 else (h.usable? p).getD 0

/-- Sum of the usable sizes of a list of blocks. -/
def usableSum (bs : List (Ptr × Nat)) : Nat := (bs.map Prod.snd).sum

/-! ## The `int` counter -/

/-- Conversion of a mathematical integer to the C type `int` (32 bits, two's
complement): the value modulo `2^32` taken in `[-2^31, 2^31)`.  The compound
assignments `mem_usage_size += n` and `mem_usage_size -= n` with `n : size_t`
store `int_of (mem_usage_size + n)` and `int_of (mem_usage_size - n)`. -/
def int_of (z : Int) : Int := (z + 2147483648) % 4294967296 - 2147483648

/-- The values of C type `int`. -/
def IsInt (z : Int) : Prop := -2147483648 ≤ z ∧ z < 2147483648

instance (z : Int) : Decidable (IsInt z) := by unfold IsInt; exact inferInstance

/-! ## Program state -/

/-- A call that reached the C library allocator, with the value it returned. -/
inductive Call where
  | malloc (size : Nat) (ret : Ptr)
  | realloc (src : Ptr) (size : Nat) (ret : Ptr)
  | free (ptr : Ptr)
  deriving DecidableEq, Repr

/-- A logged allocator call together with the hook variables as they were when
the call was made. -/
structure Event where
  call : Call
  malloc_hook : FnPtr
  realloc_hook : FnPtr
  free_hook : FnPtr
  deriving DecidableEq, Repr

/-- The globals of the module and of the C library that the module touches.
`mem_usage_mutex` is `true` while the mutex is held.  `calls` logs the calls
that reached the C library allocator, most recent first. -/
structure State where
  mem_usage_size : Int
  mem_usage_mutex : Bool
  _std_malloc_func : FnPtr
  _std_realloc_func : FnPtr
  _std_free_func : FnPtr
  __malloc_hook : FnPtr
  __realloc_hook : FnPtr
  __free_hook : FnPtr
  heap : Heap
  calls : List Event
  deriving DecidableEq, Repr

/-- Ways in which a call does not return. -/
inductive Fault where
  | deadlock
  | depth
  deriving DecidableEq, Repr

/-- `pthread_mutex_lock(&mem_usage_mutex)` in a sequential execution: the mutex
is a default (non-recursive) one, so locking it while it is held never
returns. -/
def pthread_mutex_lock (s : State) : Except Fault State :=
  if s.mem_usage_mutex then .error .deadlock else .ok { s with mem_usage_mutex := true }

/-- `pthread_mutex_unlock(&mem_usage_mutex)`. -/
def pthread_mutex_unlock (s : State) : State := { s with mem_usage_mutex := false }

/-! ## The C library allocator (environment) -/

/-- What the C library allocator answers to one `malloc` call: the returned
pointer (`0` on failure) and the usable size of the new block. -/
structure MallocOutcome where
  res : Ptr
  usable : Nat
  deriving DecidableEq, Repr

/-- What the C library allocator answers to one `realloc` call: the returned
pointer and the usable size of the resulting block.  When the result is null,
`freed` tells whether the original block was given back (glibc's
`realloc(p, 0)`) or left untouched (allocation failure). -/
structure ReallocOutcome where
  res : Ptr
  usable : Nat
  freed : Bool
  deriving DecidableEq, Repr

/-- The heap after a `malloc` call with outcome `o`. -/
def MallocOutcome.heap (o : MallocOutcome) (h : Heap) : Heap :=
  if o.res = 0 then h else h.insert o.res o.usable

/-- The heap after a `realloc` call on `src` with outcome `o`. -/
def ReallocOutcome.heap (o : ReallocOutcome) (h : Heap) (src : Ptr) : Heap :=
  if o.res = 0 then (if o.freed then h.erase src else h)
  else (h.erase src).insert o.res o.usable

/-- The event logged for a call made in state `s`. -/
def logEvent (s : State) (c : Call) : Event :=
  { call := c, malloc_hook := s.__malloc_hook, realloc_hook := s.__realloc_hook,
    free_hook := s.__free_hook }

/-- The C library's own `malloc`, reached when no hook of this module is in the
way. -/
def real_malloc (o : MallocOutcome) (s : State) (size : Nat) : Ptr × State :=
  (o.res,
   { s with
     heap := o.heap s.heap,
     calls := logEvent s (.malloc size o.res) :: s.calls })

/-- The C library's own `realloc`. -/
def real_realloc (o : ReallocOutcome) (s : State) (src : Ptr) (size : Nat) : Ptr × State :=
  (o.res,
   { s with
     heap := o.heap s.heap src,
     calls := logEvent s (.realloc src size o.res) :: s.calls })

/-- The C library's own `free`. -/
def real_free (s : State) (ptr : Ptr) : State :=
  { s with heap := s.heap.erase ptr, calls := logEvent s (.free ptr) :: s.calls }

/-- The public entry `malloc(size)`: glibc calls the function in `__malloc_hook`
when it is a hook, here `hook` when the variable holds `mem_usage_malloc`. -/
def malloc (hook : MallocOutcome → State → Nat → Except Fault (Ptr × State))
    (o : MallocOutcome) (s : State) (size : Nat) : Except Fault (Ptr × State) :=
  if s.__malloc_hook = .mem_usage_malloc then hook o s size else .ok (real_malloc o s size)

/-- The public entry `realloc(src, size)`, dispatched through `__realloc_hook`. -/
def realloc (hook : ReallocOutcome → State → Ptr → Nat → Except Fault (Ptr × State))
    (o : ReallocOutcome) (s : State) (src : Ptr) (size : Nat) : Except Fault (Ptr × State) :=
  if s.__realloc_hook = .mem_usage_realloc then hook o s src size
  else .ok (real_realloc o s src size)

/-- The public entry `free(ptr)`, dispatched through `__free_hook`. -/
def free (hook : State → Ptr → Except Fault State) (s : State) (ptr : Ptr) :
    Except Fault State :=
  if s.__free_hook = .mem_usage_free then hook s ptr else .ok (real_free s ptr)

/-! ## The module -/

/-- The "Restore std hooks" assignments. -/
def restore_std_hooks (s : State) : State :=
  { s with __malloc_hook := s._std_malloc_func, __realloc_hook := s._std_realloc_func,
           __free_hook := s._std_free_func }

/-- The "Restore our own hooks" assignments. -/
def restore_own_hooks (s : State) : State :=
  { s with __malloc_hook := .mem_usage_malloc, __realloc_hook := .mem_usage_realloc,
           __free_hook := .mem_usage_free }

/-- The hook `mem_usage_malloc(size, caller)`.  The first argument bounds the
depth of calls that come back into the hook through `__malloc_hook`. -/
def mem_usage_malloc : Nat → MallocOutcome → State → Nat → Except Fault (Ptr × State)
  | 0, _, _, _ => .error .depth
  | fuel + 1, o, s, size =>
    match pthread_mutex_lock s with
    | .error e => .error e
    | .ok s1 =>
      let s2 := restore_std_hooks s1
      let r :=
        if size ≠ 0 then
          match malloc (mem_usage_malloc fuel) o s2 size with
          | .error e => .error e
          | .ok (mem, s3) =>
            if mem ≠ 0 then
              .ok (mem, { s3 with mem_usage_size :=
                            int_of (s3.mem_usage_size + malloc_usable_size s3.heap mem) })
            else .ok (mem, s3)
        else malloc (mem_usage_malloc fuel) o s2 0
      match r with
      | .error e => .error e
      | .ok (mem, s4) => .ok (mem, pthread_mutex_unlock (restore_own_hooks s4))

/-- The hook `mem_usage_realloc(src, size, caller)`. -/
def mem_usage_realloc : Nat → ReallocOutcome → State → Ptr → Nat → Except Fault (Ptr × State)
  | 0, _, _, _, _ => .error .depth
  | fuel + 1, o, s, src, size =>
    match pthread_mutex_lock s with
    | .error e => .error e
    | .ok s1 =>
      let s2 := restore_std_hooks s1
      let s3 := { s2 with mem_usage_size :=
                    int_of (s2.mem_usage_size - malloc_usable_size s2.heap src) }
      match realloc (mem_usage_realloc fuel) o s3 src size with
      | .error e => .error e
      | .ok (mem, s4) =>
        let s5 := { s4 with mem_usage_size :=
                      int_of (s4.mem_usage_size + malloc_usable_size s4.heap mem) }
        .ok (mem, pthread_mutex_unlock (restore_own_hooks s5))

/-- The hook `mem_usage_free(ptr, caller)`. -/
def mem_usage_free : Nat → State → Ptr → Except Fault State
  | 0, _, _ => .error .depth
  | fuel + 1, s, ptr =>
    match pthread_mutex_lock s with
    | .error e => .error e
    | .ok s1 =>
      let s2 := restore_std_hooks s1
      let s3 := { s2 with mem_usage_size :=
                    int_of (s2.mem_usage_size - malloc_usable_size s2.heap ptr) }
      match free (mem_usage_free fuel) s3 ptr with
      | .error e => .error e
      | .ok s4 => .ok (pthread_mutex_unlock (restore_own_hooks s4))

/-- The query `mem_usage_get_size()`. -/
def mem_usage_get_size (s : State) : Except Fault (Int × State) :=
  match pthread_mutex_lock s with
  | .error e => .error e
  | .ok s1 =>
    let size := s1.mem_usage_size
    .ok (size, pthread_mutex_unlock s1)

/-- The reset `mem_usage_set_ref()`. -/
def mem_usage_set_ref (s : State) : Except Fault State :=
  match pthread_mutex_lock s with
  | .error e => .error e
  | .ok s1 => .ok (pthread_mutex_unlock { s1 with mem_usage_size := 0 })

/-- The module initialiser `initallocstats()` up to the point where the hooks
are installed.  The registration of the module with the interpreter that
follows is a host call made with the hooks already active: its allocations
are ordinary hooked calls after this function. -/
def initallocstats (s : State) : State :=
  let s1 := { s with mem_usage_size := 0 }
  let s2 := { s1 with _std_malloc_func := s1.__malloc_hook,
                      _std_realloc_func := s1.__realloc_hook,
                      _std_free_func := s1.__free_hook }
  { s2 with __malloc_hook := .mem_usage_malloc, __realloc_hook := .mem_usage_realloc,
            __free_hook := .mem_usage_free }

/-! ## Well-installed states -/

/-- A state in which a hooked call can run: the mutex is free and the saved
standard triple holds none of this module's own hooks (the initialiser ran
while other implementations were active). -/
def Ready (s : State) : Prop :=
  s.mem_usage_mutex = false ∧ s._std_malloc_func ≠ .mem_usage_malloc ∧
  s._std_realloc_func ≠ .mem_usage_realloc ∧ s._std_free_func ≠ .mem_usage_free

instance (s : State) : Decidable (Ready s) := by unfold Ready; exact inferInstance

/-- The state in which a hook of this module makes its allocator call, up to
the counter: mutex held, standard hooks back in place. -/
def atCall (s : State) : State := restore_std_hooks { s with mem_usage_mutex := true }

/-- The counter after `mem_usage_malloc` saw `mem` come back from `malloc(size)`
with the heap then `h`. -/
def mallocCount (c : Int) (h : Heap) (size : Nat) (mem : Ptr) : Int :=
  if size ≠ 0 ∧ mem ≠ 0 then int_of (c + malloc_usable_size h mem) else c

/-- The state in which `mem_usage_malloc` returns when it is entered in `s`
with the standard hooks saved and the C library answers `o`. -/
def afterMalloc (o : MallocOutcome) (s : State) (size : Nat) : State :=
  { s with
    mem_usage_size := mallocCount s.mem_usage_size (o.heap s.heap) size o.res,
    heap := o.heap s.heap,
    calls := logEvent (atCall s) (.malloc size o.res) :: s.calls,
    __malloc_hook := .mem_usage_malloc, __realloc_hook := .mem_usage_realloc,
    __free_hook := .mem_usage_free }

/-- The state in which `mem_usage_realloc` returns. -/
def afterRealloc (o : ReallocOutcome) (s : State) (src : Ptr) (size : Nat) : State :=
  { s with
    mem_usage_size :=
      int_of (int_of (s.mem_usage_size - malloc_usable_size s.heap src)
        + malloc_usable_size (o.heap s.heap src) o.res),
    heap := o.heap s.heap src,
    calls := logEvent (atCall s) (.realloc src size o.res) :: s.calls,
    __malloc_hook := .mem_usage_malloc, __realloc_hook := .mem_usage_realloc,
    __free_hook := .mem_usage_free }

/-- The state in which `mem_usage_free` returns. -/
def afterFree (s : State) (ptr : Ptr) : State :=
  { s with
    mem_usage_size := int_of (s.mem_usage_size - malloc_usable_size s.heap ptr),
    heap := s.heap.erase ptr,
    calls := logEvent (atCall s) (.free ptr) :: s.calls,
    __malloc_hook := .mem_usage_malloc, __realloc_hook := .mem_usage_realloc,
    __free_hook := .mem_usage_free }

/-! ## Sequences of allocate and release calls -/

/-- One call of an allocate/release sequence, with the C library's outcome for
an allocation. -/
inductive AllocOp where
  | allocate (size : Nat) (o : MallocOutcome)
  | release (ptr : Ptr)
  deriving DecidableEq, Repr

/-- Run one call through the hooks. -/
def stepAllocOp (fuel : Nat) (s : State) : AllocOp → Except Fault State
  | .allocate size o =>
    match mem_usage_malloc fuel o s size with
    | .error e => .error e
    | .ok (_, s1) => .ok s1
  | .release ptr => mem_usage_free fuel s ptr

/-- Run a sequence of calls through the hooks. -/
def runAllocOps (fuel : Nat) : State → List AllocOp → Except Fault State
  | s, [] => .ok s
  | s, op :: ops =>
    match stepAllocOp fuel s op with
    | .error e => .error e
    | .ok s1 => runAllocOps fuel s1 ops

/-- The blocks allocated by a sequence and not yet released by it, starting
from the blocks `live`. -/
def outstanding : Heap → List AllocOp → Heap
  | live, [] => live
  | live, .allocate _ o :: ops => outstanding (o.heap live) ops
  | live, .release ptr :: ops => outstanding (live.erase ptr) ops

/-- A sequence of allocate/release pairs over the heap `h`, `live` being the
blocks the sequence has allocated so far: the C library hands out addresses
that have no live block, and every release gives back null or a block that the
sequence allocated and has not released yet. -/
def Paired : Heap → Heap → List AllocOp → Prop
  | _, _, [] => True
  | h, live, .allocate _ o :: ops =>
    (o.res ≠ 0 → h.usable? o.res = none) ∧ Paired (o.heap h) (o.heap live) ops
  | h, live, .release ptr :: ops =>
    (ptr = 0 ∨ (live.usable? ptr).isSome) ∧ Paired (h.erase ptr) (live.erase ptr) ops

/-- Every allocation of the sequence asks for a positive size. -/
def PositiveSizes : List AllocOp → Prop
  | [] => True
  | .allocate size _ :: ops => size ≠ 0 ∧ PositiveSizes ops
  | .release _ :: ops => PositiveSizes ops

/-- The blocks `live` are live blocks of the heap `h`, at distinct non-null
addresses and with the usable sizes the heap has for them. -/
def Tracks (h live : Heap) : Prop :=
  (∀ b ∈ live, b.1 ≠ 0 ∧ h.usable? b.1 = some b.2) ∧ (live.map Prod.fst).Nodup

/-! ## Sequences of hooked calls -/

/-- One call through any of the three hooks, with the C library's outcome. -/
inductive HookOp where
  | malloc (size : Nat) (o : MallocOutcome)
  | realloc (src : Ptr) (size : Nat) (o : ReallocOutcome)
  | free (ptr : Ptr)
  deriving DecidableEq, Repr

/-- Run one hooked call. -/
def stepHookOp (fuel : Nat) (s : State) : HookOp → Except Fault State
  | .malloc size o =>
    match mem_usage_malloc fuel o s size with
    | .error e => .error e
    | .ok (_, s1) => .ok s1
  | .realloc src size o =>
    match mem_usage_realloc fuel o s src size with
    | .error e => .error e
    | .ok (_, s1) => .ok s1
  | .free ptr => mem_usage_free fuel s ptr

/-- Run a sequence of hooked calls. -/
def runHookOps (fuel : Nat) : State → List HookOp → Except Fault State
  | s, [] => .ok s
  | s, op :: ops =>
    match stepHookOp fuel s op with
    | .error e => .error e
    | .ok s1 => runHookOps fuel s1 ops

/-- The heap after one hooked call. -/
def HookOp.heap (h : Heap) : HookOp → Heap
  | .malloc _ o => o.heap h
  | .realloc src _ o => o.heap h src
  | .free ptr => h.erase ptr

/-- The usable size one hooked call adds to the count, over the heap `h` in
which it starts: that of the new block for an allocation of positive size,
that of the resulting block for a reallocation. -/
def HookOp.added (h : Heap) : HookOp → Nat
  | .malloc size o => if size ≠ 0 ∧ o.res ≠ 0 then malloc_usable_size (o.heap h) o.res else 0
  | .realloc src _ o => malloc_usable_size (o.heap h src) o.res
  | .free _ => 0

/-- The usable size one hooked call subtracts from the count: that of the
block handed in to a reallocation or a release. -/
def HookOp.subtracted (h : Heap) : HookOp → Nat
  | .malloc _ _ => 0
  | .realloc src _ _ => malloc_usable_size h src
  | .free ptr => malloc_usable_size h ptr

/-- Net of the usable sizes added and subtracted by a sequence of hooked calls
that starts over the heap `h`, as a mathematical integer. -/
def netUsable : Heap → List HookOp → Int
  | _, [] => 0
  | h, op :: ops => (op.added h : Int) - (op.subtracted h : Int) + netUsable (op.heap h) ops

/-- The state in which one hooked call returns. -/
def afterHookOp (s : State) : HookOp → State
  | .malloc size o => afterMalloc o s size
  | .realloc src size o => afterRealloc o s src size
  | .free ptr => afterFree s ptr

/-! ## Sample states -/

/-- A process before the module is loaded: counter zero, mutex free, the C
library's own implementations in the hook variables, an empty heap. -/
def beforeInstall : State :=
  { mem_usage_size := 0, mem_usage_mutex := false,
    _std_malloc_func := .std 0, _std_realloc_func := .std 0, _std_free_func := .std 0,
    __malloc_hook := .std 1, __realloc_hook := .std 2, __free_hook := .std 3,
    heap := [], calls := [] }

/-- The process right after the module initialiser ran once. -/
def installed : State := initallocstats beforeInstall

/-- An installed process whose counter stands at `c`. -/
def installedAt (c : Int) : State := { installed with mem_usage_size := c }

/-! ## Sequences of calls of the whole interface -/

/-- One call of the module's interface: a hooked allocator call, the reset or
the query. -/
inductive ApiOp where
  | hook (op : HookOp)
  | reset
  | query
  deriving DecidableEq, Repr

/-- Run one call of the interface. -/
def stepApiOp (fuel : Nat) (s : State) : ApiOp → Except Fault State
  | .hook op => stepHookOp fuel s op
  | .reset => mem_usage_set_ref s
  | .query =>
    match mem_usage_get_size s with
    | .error e => .error e
    | .ok (_, s1) => .ok s1

/-- Run a sequence of calls of the interface. -/
def runApiOps (fuel : Nat) : State → List ApiOp → Except Fault State
  | s, [] => .ok s
  | s, op :: ops =>
    match stepApiOp fuel s op with
    | .error e => .error e
    | .ok s1 => runApiOps fuel s1 ops

/-- A process in which the initialiser has not run: the mutex is free and the
hook variables hold none of this module's hooks. -/
def NotInstalled (s : State) : Prop :=
  s.mem_usage_mutex = false ∧ s.__malloc_hook ≠ .mem_usage_malloc ∧
  s.__realloc_hook ≠ .mem_usage_realloc ∧ s.__free_hook ≠ .mem_usage_free

instance (s : State) : Decidable (NotInstalled s) := by unfold NotInstalled; exact inferInstance

/-- The state in which the reset or the query returns. -/
def afterApiOp (s : State) : ApiOp → State
  | .hook op => afterHookOp s op
  | .reset => { s with mem_usage_size := 0 }
  | .query => s

/-- The call that a hooked call makes to the C library allocator. -/
def HookOp.call : HookOp → Call
  | .malloc size o => .malloc size o.res
  | .realloc src size o => .realloc src size o.res
  | .free ptr => .free ptr

/-- Sum of the usable sizes that a sequence of hooked calls adds to the count,
starting over the heap `h`. -/
def totalAdded : Heap → List HookOp → Nat
  | _, [] => 0
  | h, op :: ops => op.added h + totalAdded (op.heap h) ops

/-- Sum of the usable sizes that a sequence of hooked calls subtracts from the
count, starting over the heap `h`. -/
def totalSubtracted : Heap → List HookOp → Nat
  | _, [] => 0
  | h, op :: ops => op.subtracted h + totalSubtracted (op.heap h) ops

/-! ## Two threads -/

/-- The first part of every hook (lines 41-45, 67-71, 88-92): take the mutex
and put the standard hooks back. -/
def hook_enter (s : State) : Except Fault State :=
  match pthread_mutex_lock s with
  | .error e => .error e
  | .ok s1 => .ok (restore_std_hooks s1)

/-- The rest of `mem_usage_malloc` (lines 47-61), run by the thread that holds
the mutex: the allocator call, the count, the module's hooks back in place, the
mutex released. -/
def mem_usage_malloc_rest (fuel : Nat) (o : MallocOutcome) (s2 : State) (size : Nat) :
    Except Fault (Ptr × State) :=
  let r :=
    if size ≠ 0 then
      match malloc (mem_usage_malloc fuel) o s2 size with
      | .error e => .error e
      | .ok (mem, s3) =>
        if mem ≠ 0 then
          .ok (mem, { s3 with mem_usage_size :=
                        int_of (s3.mem_usage_size + malloc_usable_size s3.heap mem) })
        else .ok (mem, s3)
    else malloc (mem_usage_malloc fuel) o s2 0
  match r with
  | .error e => .error e
  | .ok (mem, s4) => .ok (mem, pthread_mutex_unlock (restore_own_hooks s4))

/-! ## Arithmetic of the counter -/

theorem int_of_isInt (z : Int) : IsInt (int_of z) := by
  unfold IsInt int_of; omega

theorem int_of_eq_self {z : Int} (h : IsInt z) : int_of z = z := by
  unfold IsInt at h; unfold int_of; omega

theorem int_of_add_int_of (a b : Int) : int_of (int_of a + b) = int_of (a + b) := by
  unfold int_of; omega

theorem int_of_sub_int_of (a b : Int) : int_of (int_of a - b) = int_of (a - b) := by
  unfold int_of; omega

/-! ## Heap facts -/

theorem malloc_usable_size_null (h : Heap) : malloc_usable_size h 0 = 0 := by
  simp [malloc_usable_size]

theorem malloc_usable_size_insert (h : Heap) {p : Ptr} (hp : p ≠ 0) (u : Nat) :
    malloc_usable_size (h.insert p u) p = u := by
  simp [malloc_usable_size, hp, Heap.insert, Heap.usable?, List.lookup]

theorem usable?_insert (h : Heap) (p q : Ptr) (u : Nat) :
    (h.insert p u).usable? q = if q = p then some u else h.usable? q := by
  by_cases hq : q = p
  · simp [Heap.insert, Heap.usable?, List.lookup, hq]
  · have : (q == p) = false := by simpa using hq
    simp [Heap.insert, Heap.usable?, List.lookup, hq, this]

theorem usable?_erase (h : Heap) (p q : Ptr) :
    (h.erase p).usable? q = if q = p then none else h.usable? q := by
  induction h with
  | nil => simp [Heap.erase, Heap.usable?, List.lookup]
  | cons b t ih =>
    obtain ⟨a, v⟩ := b
    simp only [Heap.erase, Heap.usable?] at ih ⊢
    by_cases hap : a = p
    · subst hap
      by_cases hq : q = a
      · simp [List.filter, hq] at ih ⊢
        simpa [hq] using ih
      · have hqa : (q == a) = false := by simpa using hq
        simp [List.filter, List.lookup, hq, hqa] at ih ⊢
        simpa [hq] using ih
    · have hne : (a != p) = true := by simpa using hap
      by_cases hq : q = a
      · subst hq
        simp [List.filter, List.lookup, hne, hap]
      · have hqa : (q == a) = false := by simpa using hq
        simp [List.filter, List.lookup, hne, hqa]
        simpa using ih

theorem mem_of_usable? {live : Heap} {p : Ptr} {u : Nat} (h : live.usable? p = some u) :
    (p, u) ∈ live := by
  induction live with
  | nil => simp [Heap.usable?, List.lookup] at h
  | cons b t ih =>
    obtain ⟨a, v⟩ := b
    by_cases hpa : p = a
    · subst hpa
      simp [Heap.usable?, List.lookup] at h
      simp [h]
    · have hq : (p == a) = false := by simpa using hpa
      simp only [Heap.usable?, List.lookup, hq] at h
      exact List.mem_cons_of_mem _ (ih h)

theorem erase_eq_self {live : Heap} {p : Ptr} (h : p ∉ live.map Prod.fst) :
    live.erase p = live := by
  unfold Heap.erase
  rw [List.filter_eq_self]
  intro b hb
  have : b.1 ≠ p := fun hbp => h (hbp ▸ List.mem_map_of_mem Prod.fst hb)
  simpa using this

theorem usableSum_erase {live : Heap} {p : Ptr} {u : Nat}
    (hn : (live.map Prod.fst).Nodup) (h : live.usable? p = some u) :
    usableSum (live.erase p) + u = usableSum live := by
  induction live with
  | nil => simp [Heap.usable?, List.lookup] at h
  | cons b t ih =>
    obtain ⟨a, v⟩ := b
    simp only [List.map_cons, List.nodup_cons] at hn
    by_cases hpa : p = a
    · subst hpa
      simp [Heap.usable?, List.lookup] at h
      subst h
      have ht : Heap.erase t p = t := erase_eq_self hn.1
      have : Heap.erase ((p, v) :: t) p = Heap.erase t p := by
        simp [Heap.erase, List.filter]
      rw [this, ht]
      simp [usableSum]
      omega
    · have hq : (p == a) = false := by simpa using hpa
      simp only [Heap.usable?, List.lookup, hq] at h
      have hap : (a != p) = true := by simpa using (Ne.symm hpa)
      have : Heap.erase ((a, v) :: t) p = (a, v) :: Heap.erase t p := by
        simp [Heap.erase, List.filter, hap]
      rw [this]
      have := ih hn.2 h
      simp [usableSum] at this ⊢
      omega

theorem tracks_malloc {h live : Heap} (ht : Tracks h live) (o : MallocOutcome)
    (hfresh : o.res ≠ 0 → h.usable? o.res = none) : Tracks (o.heap h) (o.heap live) := by
  by_cases hr : o.res = 0
  · simpa [MallocOutcome.heap, hr] using ht
  · have hf := hfresh hr
    have hnot : o.res ∉ live.map Prod.fst := by
      intro hmem
      obtain ⟨b, hb, hb1⟩ := List.mem_map.1 hmem
      have := (ht.1 b hb).2
      rw [hb1, hf] at this
      cases this
    refine ⟨?_, ?_⟩
    · intro b hb
      simp only [MallocOutcome.heap, hr, if_false, Heap.insert, List.mem_cons] at hb
      simp only [MallocOutcome.heap, hr, if_false, usable?_insert]
      rcases hb with hb | hb
      · subst hb
        simp [hr]
      · have hne : b.1 ≠ o.res := fun he => hnot (he ▸ List.mem_map_of_mem Prod.fst hb)
        simp [hne, ht.1 b hb]
    · simp only [MallocOutcome.heap, hr, if_false, Heap.insert, List.map_cons,
        List.nodup_cons]
      exact ⟨hnot, ht.2⟩

theorem tracks_erase {h live : Heap} (ht : Tracks h live) (p : Ptr) :
    Tracks (h.erase p) (live.erase p) := by
  refine ⟨?_, ?_⟩
  · intro b hb
    have hb2 : b ∈ live ∧ b.1 ≠ p := by
      simpa [Heap.erase, List.mem_filter] using hb
    refine ⟨(ht.1 b hb2.1).1, ?_⟩
    rw [usable?_erase]
    simp [hb2.2, (ht.1 b hb2.1).2]
  · exact ht.2.sublist ((List.filter_sublist live).map Prod.fst)

/-! ## The hooks in a well-installed state -/

/-- The hook `mem_usage_malloc` returns in every well-installed state, with the
pointer the C library returned. -/
theorem mem_usage_malloc_ready (fuel : Nat) (o : MallocOutcome) (s : State) (size : Nat)
    (h : Ready s) :
    mem_usage_malloc (fuel + 1) o s size = .ok (o.res, afterMalloc o s size) := by
  obtain ⟨hm, h1, _, _⟩ := h
  by_cases hs : size = 0 <;> by_cases hr : o.res = 0 <;>
    simp [mem_usage_malloc, pthread_mutex_lock, hm, malloc, restore_std_hooks, h1, real_malloc,
      restore_own_hooks, pthread_mutex_unlock, mallocCount, atCall, hs, hr, logEvent,
      afterMalloc]

/-- The hook `mem_usage_realloc` returns in every well-installed state, with
the pointer the C library returned. -/
theorem mem_usage_realloc_ready (fuel : Nat) (o : ReallocOutcome) (s : State) (src : Ptr)
    (size : Nat) (h : Ready s) :
    mem_usage_realloc (fuel + 1) o s src size = .ok (o.res, afterRealloc o s src size) := by
  obtain ⟨hm, _, h2, _⟩ := h
  simp [mem_usage_realloc, pthread_mutex_lock, hm, realloc, restore_std_hooks, h2, real_realloc,
    restore_own_hooks, pthread_mutex_unlock, atCall, logEvent, afterRealloc]

/-- The hook `mem_usage_free` returns in every well-installed state. -/
theorem mem_usage_free_ready (fuel : Nat) (s : State) (ptr : Ptr) (h : Ready s) :
    mem_usage_free (fuel + 1) s ptr = .ok (afterFree s ptr) := by
  obtain ⟨hm, _, _, h3⟩ := h
  simp [mem_usage_free, pthread_mutex_lock, hm, free, restore_std_hooks, h3, real_free,
    restore_own_hooks, pthread_mutex_unlock, atCall, logEvent, afterFree]

/-- The reset returns whenever the mutex is free and changes the counter only. -/
theorem mem_usage_set_ref_free (s : State) (h : s.mem_usage_mutex = false) :
    mem_usage_set_ref s = .ok { s with mem_usage_size := 0 } := by
  simp [mem_usage_set_ref, pthread_mutex_lock, h, pthread_mutex_unlock]

/-- The query returns the counter whenever the mutex is free and changes nothing. -/
theorem mem_usage_get_size_free (s : State) (h : s.mem_usage_mutex = false) :
    mem_usage_get_size s = .ok (s.mem_usage_size, s) := by
  cases s
  simp_all [mem_usage_get_size, pthread_mutex_lock, pthread_mutex_unlock]

theorem ready_afterMalloc {s : State} (h : Ready s) (o : MallocOutcome) (size : Nat) :
    Ready (afterMalloc o s size) := by
  simpa [Ready, afterMalloc] using h

theorem ready_afterRealloc {s : State} (h : Ready s) (o : ReallocOutcome) (src : Ptr)
    (size : Nat) : Ready (afterRealloc o s src size) := by
  simpa [Ready, afterRealloc] using h

theorem ready_afterFree {s : State} (h : Ready s) (ptr : Ptr) : Ready (afterFree s ptr) := by
  simpa [Ready, afterFree] using h

theorem ready_reset {s : State} (h : Ready s) : Ready { s with mem_usage_size := 0 } := by
  simpa [Ready] using h

theorem ready_installed : Ready installed := by decide

theorem ready_installedAt (c : Int) : Ready (installedAt c) := by
  simp [Ready, installedAt, installed, initallocstats, beforeInstall]

/-- When the initialiser ran a second time the saved triple holds this module's
own hooks: the allocator call of `mem_usage_malloc` comes back into the hook
with the mutex held and never returns. -/
theorem mem_usage_malloc_second_install (o : MallocOutcome) (size : Nat) :
    mem_usage_malloc 2 o (initallocstats installed) (size + 1) = .error .deadlock := by
  simp [mem_usage_malloc, pthread_mutex_lock, malloc, restore_std_hooks, initallocstats,
    installed, beforeInstall]

/-! ## Sequences of calls -/

/-- The counter follows the blocks a sequence of allocate/release pairs has
outstanding, when every allocation asks for a positive size. -/
theorem runAllocOps_counts (fuel : Nat) :
    ∀ (ops : List AllocOp) (s : State) (live : Heap), Ready s → Tracks s.heap live →
      Paired s.heap live ops → PositiveSizes ops →
      s.mem_usage_size = int_of (usableSum live) →
      ∃ s1, runAllocOps (fuel + 1) s ops = .ok s1 ∧ Ready s1 ∧
        s1.mem_usage_size = int_of (usableSum (outstanding live ops)) := by
  intro ops
  induction ops with
  | nil =>
    intro s live hr _ _ _ hc
    exact ⟨s, rfl, hr, hc⟩
  | cons op ops ih =>
    intro s live hr ht hp hs hc
    cases op with
    | allocate size o =>
      obtain ⟨hfresh, hp1⟩ := hp
      obtain ⟨hsz, hs1⟩ := hs
      have hc1 : (afterMalloc o s size).mem_usage_size = int_of (usableSum (o.heap live)) := by
        by_cases hres : o.res = 0
        · simp [afterMalloc, mallocCount, hres, MallocOutcome.heap, hc]
        · have hu : malloc_usable_size (o.heap s.heap) o.res = o.usable := by
            simp [MallocOutcome.heap, hres, malloc_usable_size_insert]
          have hc2 : (afterMalloc o s size).mem_usage_size
              = int_of (s.mem_usage_size + o.usable) := by
            simp [afterMalloc, mallocCount, hres, hsz, hu]
          have hsum : usableSum (o.heap live) = usableSum live + o.usable := by
            simp [MallocOutcome.heap, hres, Heap.insert, usableSum]
            omega
          rw [hc2, hc, int_of_add_int_of, hsum]
          push_cast
          rfl
      obtain ⟨s1, hrun, hr1, hcnt⟩ := ih (afterMalloc o s size) (o.heap live)
        (ready_afterMalloc hr o size) (tracks_malloc ht o hfresh) hp1 hs1 hc1
      refine ⟨s1, ?_, hr1, hcnt⟩
      simp only [runAllocOps, stepAllocOp, mem_usage_malloc_ready fuel o s size hr]
      exact hrun
    | release ptr =>
      obtain ⟨hptr, hp1⟩ := hp
      have hc1 : (afterFree s ptr).mem_usage_size = int_of (usableSum (live.erase ptr)) := by
        rcases hptr with h0 | hlive
        · subst h0
          have hnot : (0 : Ptr) ∉ live.map Prod.fst := by
            intro hmem
            obtain ⟨b, hb, hb1⟩ := List.mem_map.1 hmem
            exact (ht.1 b hb).1 hb1
          rw [erase_eq_self hnot]
          simp [afterFree, malloc_usable_size_null, hc, int_of_eq_self (int_of_isInt _)]
        · obtain ⟨u, hu⟩ := Option.isSome_iff_exists.1 hlive
          have hmem := mem_of_usable? hu
          have hb := ht.1 (ptr, u) hmem
          have hsize : malloc_usable_size s.heap ptr = u := by
            simp [malloc_usable_size, hb.1, hb.2]
          have hsum := usableSum_erase ht.2 hu
          simp only [afterFree, hsize, hc, int_of_sub_int_of]
          congr 1
          omega
      obtain ⟨s1, hrun, hr1, hcnt⟩ := ih (afterFree s ptr) (live.erase ptr)
        (ready_afterFree hr ptr) (tracks_erase ht ptr) hp1 hs hc1
      refine ⟨s1, ?_, hr1, hcnt⟩
      simp only [runAllocOps, stepAllocOp, mem_usage_free_ready fuel s ptr hr]
      exact hrun

theorem stepHookOp_ready (fuel : Nat) (s : State) (op : HookOp) (h : Ready s) :
    stepHookOp (fuel + 1) s op = .ok (afterHookOp s op) := by
  cases op with
  | malloc size o => simp [stepHookOp, afterHookOp, mem_usage_malloc_ready fuel o s size h]
  | realloc src size o =>
    simp [stepHookOp, afterHookOp, mem_usage_realloc_ready fuel o s src size h]
  | free ptr => simp [stepHookOp, afterHookOp, mem_usage_free_ready fuel s ptr h]

theorem afterHookOp_facts (s : State) (op : HookOp) (h : Ready s)
    (hc : IsInt s.mem_usage_size) :
    Ready (afterHookOp s op) ∧ (afterHookOp s op).heap = op.heap s.heap ∧
      (afterHookOp s op).mem_usage_size
        = int_of (s.mem_usage_size + ((op.added s.heap : Int) - (op.subtracted s.heap : Int))) := by
  cases op with
  | malloc size o =>
    refine ⟨ready_afterMalloc h o size, rfl, ?_⟩
    by_cases hcond : size ≠ 0 ∧ o.res ≠ 0
    · simp [afterHookOp, afterMalloc, mallocCount, HookOp.added, HookOp.subtracted, hcond]
    · simp [afterHookOp, afterMalloc, mallocCount, HookOp.added, HookOp.subtracted, hcond,
        int_of_eq_self hc]
  | realloc src size o =>
    refine ⟨ready_afterRealloc h o src size, rfl, ?_⟩
    simp only [afterHookOp, afterRealloc, HookOp.added, HookOp.subtracted, int_of_add_int_of]
    congr 1
    ring
  | free ptr =>
    refine ⟨ready_afterFree h ptr, rfl, ?_⟩
    simp only [afterHookOp, afterFree, HookOp.added, HookOp.subtracted]
    congr 1
    push_cast
    ring

/-- The counter follows the net of the usable sizes that a sequence of hooked
calls adds and subtracts. -/
theorem runHookOps_net (fuel : Nat) :
    ∀ (ops : List HookOp) (s : State), Ready s → IsInt s.mem_usage_size →
      ∃ s1, runHookOps (fuel + 1) s ops = .ok s1 ∧ Ready s1 ∧
        s1.mem_usage_size = int_of (s.mem_usage_size + netUsable s.heap ops) := by
  intro ops
  induction ops with
  | nil =>
    intro s hr hc
    exact ⟨s, rfl, hr, by simp [netUsable, int_of_eq_self hc]⟩
  | cons op ops ih =>
    intro s hr hc
    obtain ⟨hr1, hheap, hcnt⟩ := afterHookOp_facts s op hr hc
    obtain ⟨s1, hrun, hr2, hfin⟩ := ih (afterHookOp s op) hr1 (hcnt ▸ int_of_isInt _)
    refine ⟨s1, ?_, hr2, ?_⟩
    · simp only [runHookOps, stepHookOp_ready fuel s op hr]
      exact hrun
    · rw [hfin, hcnt, hheap, int_of_add_int_of]
      simp only [netUsable]
      congr 1
      ring

/-! ## Sequences of allocate/release pairs -/

/-- C1, as stated, fails for requests of size 0.  After a reset, one hooked
allocate of size 0 for which the C library returns the block 4096 of usable
size 24 leaves the query at 0 while 24 usable bytes are outstanding; releasing
that block then leaves the query at -24 while nothing is outstanding. -/
theorem alloc_release_sum_counterexample :
    Paired installed.heap [] [.allocate 0 ⟨4096, 24⟩, .release 4096] ∧
    (∃ s0 s1, mem_usage_set_ref installed = .ok s0 ∧
      runAllocOps 1 s0 [.allocate 0 ⟨4096, 24⟩] = .ok s1 ∧
      mem_usage_get_size s1 = .ok (0, s1) ∧
      usableSum (outstanding [] [.allocate 0 ⟨4096, 24⟩]) = 24 ∧
      (0 : Int) ≠ (usableSum (outstanding [] [.allocate 0 ⟨4096, 24⟩]) : Int)) ∧
    (∃ s0 s1, mem_usage_set_ref installed = .ok s0 ∧
      runAllocOps 1 s0 [.allocate 0 ⟨4096, 24⟩, .release 4096] = .ok s1 ∧
      mem_usage_get_size s1 = .ok (-24, s1) ∧
      usableSum (outstanding [] [.allocate 0 ⟨4096, 24⟩, .release 4096]) = 0 ∧
      (-24 : Int) ≠
        (usableSum (outstanding [] [.allocate 0 ⟨4096, 24⟩, .release 4096]) : Int)) := by
  refine ⟨?_, ⟨_, _, mem_usage_set_ref_free _ rfl, rfl, ?_, by decide, by decide⟩,
    ⟨_, _, mem_usage_set_ref_free _ rfl, rfl, ?_, by decide, by decide⟩⟩
  · simp [Paired, installed, initallocstats, beforeInstall, Heap.usable?, MallocOutcome.heap,
      Heap.insert, List.lookup]
  · exact mem_usage_get_size_free _ rfl
  · exact mem_usage_get_size_free _ rfl

/-- C1, amended: for every sequence of allocate/release pairs in which every
allocation asks for a positive size, run through the hooks in a well-installed
state after a reset, whatever the C library answers to each allocation, the
sequence returns and the query equals the `int` value of the sum of the usable
sizes of the blocks allocated by the sequence and not yet released (exactly
that sum whenever it is below `2^31`). -/
theorem alloc_release_sum (fuel : Nat) (s : State) (ops : List AllocOp) (h : Ready s)
    (hp : Paired s.heap [] ops) (hs : PositiveSizes ops) :
    ∃ s0 s1, mem_usage_set_ref s = .ok s0 ∧ runAllocOps (fuel + 1) s0 ops = .ok s1 ∧
      mem_usage_get_size s1 = .ok (int_of (usableSum (outstanding [] ops)), s1) ∧
      (usableSum (outstanding [] ops) < 2147483648 →
        mem_usage_get_size s1 = .ok ((usableSum (outstanding [] ops) : Int), s1)) := by
  have htr : Tracks { s with mem_usage_size := 0 }.heap [] := ⟨by simp, by simp⟩
  obtain ⟨s1, hrun, hr1, hcnt⟩ := runAllocOps_counts fuel ops { s with mem_usage_size := 0 } []
    (ready_reset h) htr hp hs rfl
  refine ⟨_, s1, mem_usage_set_ref_free s h.1, hrun, ?_, ?_⟩
  · rw [mem_usage_get_size_free _ hr1.1, hcnt]
  · intro hlt
    have hi : IsInt (usableSum (outstanding [] ops) : Int) := by unfold IsInt; omega
    rw [mem_usage_get_size_free _ hr1.1, hcnt, int_of_eq_self hi]

theorem alloc_release_sum_witness :
    Ready installed ∧
    Paired installed.heap []
      [.allocate 100 ⟨4096, 112⟩, .allocate 8 ⟨8192, 24⟩, .release 4096, .allocate 50 ⟨0, 0⟩] ∧
    PositiveSizes
      [.allocate 100 ⟨4096, 112⟩, .allocate 8 ⟨8192, 24⟩, .release 4096, .allocate 50 ⟨0, 0⟩] ∧
    usableSum (outstanding []
      [.allocate 100 ⟨4096, 112⟩, .allocate 8 ⟨8192, 24⟩, .release 4096,
       .allocate 50 ⟨0, 0⟩]) = 24 ∧
    ∃ s0 s1, mem_usage_set_ref installed = .ok s0 ∧
      runAllocOps 1 s0
        [.allocate 100 ⟨4096, 112⟩, .allocate 8 ⟨8192, 24⟩, .release 4096,
         .allocate 50 ⟨0, 0⟩] = .ok s1 ∧
      mem_usage_get_size s1 = .ok (int_of (usableSum (outstanding []
        [.allocate 100 ⟨4096, 112⟩, .allocate 8 ⟨8192, 24⟩, .release 4096,
         .allocate 50 ⟨0, 0⟩])), s1) ∧
      (usableSum (outstanding []
        [.allocate 100 ⟨4096, 112⟩, .allocate 8 ⟨8192, 24⟩, .release 4096,
         .allocate 50 ⟨0, 0⟩]) < 2147483648 →
        mem_usage_get_size s1 = .ok ((usableSum (outstanding []
          [.allocate 100 ⟨4096, 112⟩, .allocate 8 ⟨8192, 24⟩, .release 4096,
           .allocate 50 ⟨0, 0⟩]) : Int), s1)) := by
  have hp : Paired installed.heap []
      [.allocate 100 ⟨4096, 112⟩, .allocate 8 ⟨8192, 24⟩, .release 4096,
       .allocate 50 ⟨0, 0⟩] := by
    simp [Paired, installed, initallocstats, beforeInstall, Heap.usable?, MallocOutcome.heap,
      Heap.insert, Heap.erase, List.lookup]
  have hs : PositiveSizes
      [.allocate 100 ⟨4096, 112⟩, .allocate 8 ⟨8192, 24⟩, .release 4096,
       .allocate 50 ⟨0, 0⟩] := by
    simp [PositiveSizes]
  exact ⟨by decide, hp, hs, by decide, alloc_release_sum 0 installed _ (by decide) hp hs⟩

/-! ## Round trip -/

/-- C2, as stated, fails for a request of size 0: from counter 0 the C library
returns the non-null block 4096 of usable size 24, the query after the hooked
allocate still returns 0 (not 0 + 24), and after the hooked release of that
block it returns -24 (not 0 again). -/
theorem round_trip_counterexample :
    ∃ s1 s2, mem_usage_malloc 1 ⟨4096, 24⟩ (installedAt 0) 0 = .ok (4096, s1) ∧
      malloc_usable_size s1.heap 4096 = 24 ∧
      mem_usage_get_size s1 = .ok (0, s1) ∧
      (0 : Int) ≠ (installedAt 0).mem_usage_size + (malloc_usable_size s1.heap 4096 : Int) ∧
      mem_usage_free 1 s1 4096 = .ok s2 ∧
      mem_usage_get_size s2 = .ok (-24, s2) ∧
      (-24 : Int) ≠ (installedAt 0).mem_usage_size := by
  refine ⟨_, _, mem_usage_malloc_ready 0 _ _ _ (by decide), by decide, ?_, by decide,
    mem_usage_free_ready 0 _ _ (by decide), ?_, by decide⟩
  · exact mem_usage_get_size_free _ rfl
  · exact mem_usage_get_size_free _ rfl

/-- C2, amended: for every `int` counter value `c` and every requested size
`S > 0` for which the C library returns a non-null block, the query after the
hooked allocate returns the `int` sum of `c` and the usable size of the
returned block (exactly the sum whenever it is an `int`), and the query after
the hooked release of that block returns `c` again. -/
theorem round_trip (fuel : Nat) (o : MallocOutcome) (s : State) (size : Nat) (h : Ready s)
    (hc : IsInt s.mem_usage_size) (hs : 0 < size) (hr : o.res ≠ 0) :
    ∃ s1 s2, mem_usage_malloc (fuel + 1) o s size = .ok (o.res, s1) ∧
      malloc_usable_size s1.heap o.res = o.usable ∧
      mem_usage_get_size s1 = .ok (int_of (s.mem_usage_size + o.usable), s1) ∧
      (IsInt (s.mem_usage_size + o.usable) →
        mem_usage_get_size s1 = .ok (s.mem_usage_size + o.usable, s1)) ∧
      mem_usage_free (fuel + 1) s1 o.res = .ok s2 ∧
      mem_usage_get_size s2 = .ok (s.mem_usage_size, s2) := by
  have hu : malloc_usable_size (o.heap s.heap) o.res = o.usable := by
    simp [MallocOutcome.heap, hr, malloc_usable_size_insert]
  have hs0 : size ≠ 0 := by omega
  have hcount : (afterMalloc o s size).mem_usage_size
      = int_of (s.mem_usage_size + o.usable) := by
    simp [afterMalloc, mallocCount, hr, hs0, hu]
  have hr1 : Ready (afterMalloc o s size) := ready_afterMalloc h o size
  refine ⟨_, _, mem_usage_malloc_ready fuel o s size h, hu, ?_, ?_,
    mem_usage_free_ready fuel _ o.res hr1, ?_⟩
  · rw [mem_usage_get_size_free _ hr1.1, hcount]
  · intro hi
    rw [mem_usage_get_size_free _ hr1.1, hcount, int_of_eq_self hi]
  · rw [mem_usage_get_size_free _ (ready_afterFree hr1 o.res).1]
    have : (afterFree (afterMalloc o s size) o.res).mem_usage_size = s.mem_usage_size := by
      have hh : (afterMalloc o s size).heap = o.heap s.heap := rfl
      simp only [afterFree, hh, hu, hcount, int_of_sub_int_of, add_sub_cancel_right,
        int_of_eq_self hc]
    rw [this]

theorem round_trip_witness :
    Ready (installedAt 0) ∧ IsInt (installedAt 0).mem_usage_size ∧
    ∃ s1 s2, mem_usage_malloc 1 ⟨4096, 112⟩ (installedAt 0) 100 = .ok (4096, s1) ∧
      malloc_usable_size s1.heap 4096 = 112 ∧
      mem_usage_get_size s1 = .ok (int_of ((installedAt 0).mem_usage_size + (112 : Nat)), s1) ∧
      (IsInt ((installedAt 0).mem_usage_size + (112 : Nat)) →
        mem_usage_get_size s1 = .ok ((installedAt 0).mem_usage_size + (112 : Nat), s1)) ∧
      mem_usage_free 1 s1 4096 = .ok s2 ∧
      mem_usage_get_size s2 = .ok ((installedAt 0).mem_usage_size, s2) :=
  ⟨by decide, by decide,
   round_trip 0 ⟨4096, 112⟩ (installedAt 0) 100 (by decide) (by decide) (by decide) (by decide)⟩

/-! ## Reset then query -/

/-- C3: in every state with the mutex free, `reset()` returns and a `query()`
made right after it returns 0. -/
theorem reset_then_query_zero (s : State) (h : s.mem_usage_mutex = false) :
    ∃ s1, mem_usage_set_ref s = .ok s1 ∧ mem_usage_get_size s1 = .ok (0, s1) := by
  refine ⟨{ s with mem_usage_size := 0 }, mem_usage_set_ref_free s h, ?_⟩
  exact mem_usage_get_size_free _ h

theorem reset_then_query_zero_witness :
    ∃ s1, mem_usage_set_ref (installedAt 4242) = .ok s1 ∧
      mem_usage_get_size s1 = .ok (0, s1) :=
  reset_then_query_zero (installedAt 4242) (by decide)

/-! ## The allocation hook -/

/-- C4, as stated, fails when the sum leaves the range of the 32-bit counter.
From counter 0 a hooked allocate of 4 GiB that returns a block of usable size
4294971376 leaves the counter at 4080, and from counter `2^31 - 1` a hooked
allocate of 100 bytes that returns a block of usable size 104 leaves it at
-2147483545: in neither case has the counter changed by the usable size. -/
theorem mem_usage_malloc_counter_counterexample :
    (∃ s1, mem_usage_malloc 1 ⟨4096, 4294971376⟩ (installedAt 0) 4294967296 = .ok (4096, s1) ∧
      malloc_usable_size s1.heap 4096 = 4294971376 ∧
      s1.mem_usage_size = 4080 ∧
      s1.mem_usage_size - (installedAt 0).mem_usage_size
        ≠ (malloc_usable_size s1.heap 4096 : Int)) ∧
    (∃ s1, mem_usage_malloc 1 ⟨4096, 104⟩ (installedAt 2147483647) 100 = .ok (4096, s1) ∧
      malloc_usable_size s1.heap 4096 = 104 ∧
      s1.mem_usage_size = -2147483545 ∧
      s1.mem_usage_size - (installedAt 2147483647).mem_usage_size
        ≠ (malloc_usable_size s1.heap 4096 : Int)) :=
  ⟨⟨_, mem_usage_malloc_ready 0 _ _ _ (by decide), by decide, by decide, by decide⟩,
   ⟨_, mem_usage_malloc_ready 0 _ _ _ (by decide), by decide, by decide, by decide⟩⟩

/-- C4, amended: in a well-installed state the hooked allocate returns; when the C
library returned a non-null block and the size is positive the counter becomes
the `int` sum of its old value and the usable size of the new block (the exact
sum whenever that is an `int`), and in every other case (null result, or size
0 whatever the result) the counter is unchanged. -/
theorem mem_usage_malloc_counter (fuel : Nat) (o : MallocOutcome) (s : State) (size : Nat)
    (h : Ready s) :
    ∃ s1, mem_usage_malloc (fuel + 1) o s size = .ok (o.res, s1) ∧
      (o.res ≠ 0 ∧ 0 < size →
        malloc_usable_size s1.heap o.res = o.usable ∧
        s1.mem_usage_size = int_of (s.mem_usage_size + o.usable) ∧
        (IsInt (s.mem_usage_size + o.usable) →
          s1.mem_usage_size = s.mem_usage_size + o.usable)) ∧
      (o.res = 0 ∨ size = 0 → s1.mem_usage_size = s.mem_usage_size) := by
  refine ⟨_, mem_usage_malloc_ready fuel o s size h, ?_, ?_⟩
  · rintro ⟨hr, hs⟩
    have hu : malloc_usable_size (o.heap s.heap) o.res = o.usable := by
      simp [MallocOutcome.heap, hr, malloc_usable_size_insert]
    have hs0 : size ≠ 0 := by omega
    refine ⟨hu, ?_, ?_⟩
    · simp [afterMalloc, mallocCount, hr, hs0, hu]
    · intro hi
      simp [afterMalloc, mallocCount, hr, hs0, hu, int_of_eq_self hi]
  · intro hz
    have : ¬ (size ≠ 0 ∧ o.res ≠ 0) := by
      rcases hz with hz | hz <;> simp [hz]
    simp [afterMalloc, mallocCount, this]

theorem mem_usage_malloc_counter_witness :
    Ready (installedAt 7) ∧
    ∃ s1, mem_usage_malloc 1 ⟨4096, 112⟩ (installedAt 7) 100 = .ok (4096, s1) ∧
      ((4096 : Ptr) ≠ 0 ∧ 0 < 100 →
        malloc_usable_size s1.heap 4096 = 112 ∧
        s1.mem_usage_size = int_of ((installedAt 7).mem_usage_size + (112 : Nat)) ∧
        (IsInt ((installedAt 7).mem_usage_size + (112 : Nat)) →
          s1.mem_usage_size = (installedAt 7).mem_usage_size + (112 : Nat))) ∧
      ((4096 : Ptr) = 0 ∨ 100 = 0 → s1.mem_usage_size = (installedAt 7).mem_usage_size) :=
  ⟨by decide, mem_usage_malloc_counter 0 ⟨4096, 112⟩ (installedAt 7) 100 (by decide)⟩

/-! ## Reallocation of a counted block -/

/-- C5, as stated, fails when the first request has size 0: after a reset the
hooked allocate of size 0 returns the non-null block 4096 of usable size 24
without counting it, and the hooked reallocate of that block to 100 bytes
returns the block 8192 of usable size 104; the query then returns 80, not the
usable size 104 of the final block. -/
theorem realloc_final_block_counterexample :
    ∃ s0 s1 s2, mem_usage_set_ref installed = .ok s0 ∧
      mem_usage_malloc 1 ⟨4096, 24⟩ s0 0 = .ok (4096, s1) ∧
      mem_usage_realloc 1 ⟨8192, 104, false⟩ s1 4096 100 = .ok (8192, s2) ∧
      malloc_usable_size s2.heap 8192 = 104 ∧
      mem_usage_get_size s2 = .ok (80, s2) ∧
      (80 : Int) ≠ (malloc_usable_size s2.heap 8192 : Int) := by
  refine ⟨_, _, _, mem_usage_set_ref_free _ rfl, mem_usage_malloc_ready 0 _ _ _ (by decide),
    mem_usage_realloc_ready 0 _ _ _ _ (by decide), by decide, ?_, by decide⟩
  exact mem_usage_get_size_free _ rfl

/-- C5, amended: after a reset, a hooked allocate of a size `S1 > 0` that
returns a non-null block, followed by a hooked reallocate of that block to any
size `S2` that returns a non-null block, leaves the query equal to the `int`
value of the usable size of the final block alone (exactly that usable size
whenever it is below `2^31`). -/
theorem realloc_final_block (fuel : Nat) (o1 : MallocOutcome) (o2 : ReallocOutcome) (s : State)
    (S1 S2 : Nat) (h : Ready s) (h1 : 0 < S1) (hr1 : o1.res ≠ 0) (hr2 : o2.res ≠ 0) :
    ∃ s0 s1 s2, mem_usage_set_ref s = .ok s0 ∧
      mem_usage_malloc (fuel + 1) o1 s0 S1 = .ok (o1.res, s1) ∧
      mem_usage_realloc (fuel + 1) o2 s1 o1.res S2 = .ok (o2.res, s2) ∧
      malloc_usable_size s2.heap o2.res = o2.usable ∧
      mem_usage_get_size s2 = .ok (int_of o2.usable, s2) ∧
      (o2.usable < 2147483648 → mem_usage_get_size s2 = .ok ((o2.usable : Int), s2)) := by
  have hR0 := ready_reset h
  have hR1 := ready_afterMalloc hR0 o1 S1
  have hR2 := ready_afterRealloc hR1 o2 o1.res S2
  have hu1 : malloc_usable_size (o1.heap s.heap) o1.res = o1.usable := by
    simp [MallocOutcome.heap, hr1, malloc_usable_size_insert]
  have hS1 : S1 ≠ 0 := by omega
  have hheap : (afterMalloc o1 { s with mem_usage_size := 0 } S1).heap = o1.heap s.heap := rfl
  have hc1 : (afterMalloc o1 { s with mem_usage_size := 0 } S1).mem_usage_size
      = int_of (o1.usable : Int) := by
    simp [afterMalloc, mallocCount, hr1, hS1, hu1]
  have hu2 : malloc_usable_size (o2.heap (o1.heap s.heap) o1.res) o2.res = o2.usable := by
    simp [ReallocOutcome.heap, hr2, malloc_usable_size_insert]
  have hc2 : (afterRealloc o2 (afterMalloc o1 { s with mem_usage_size := 0 } S1)
      o1.res S2).mem_usage_size = int_of (o2.usable : Int) := by
    simp only [afterRealloc, hheap, hc1, hu1, hu2, int_of_sub_int_of, int_of_add_int_of,
      sub_self, zero_add]
  refine ⟨_, _, _, mem_usage_set_ref_free s h.1, mem_usage_malloc_ready fuel o1 _ S1 hR0,
    mem_usage_realloc_ready fuel o2 _ o1.res S2 hR1, ?_, ?_, ?_⟩
  · simpa only [afterRealloc, hheap] using hu2
  · rw [mem_usage_get_size_free _ hR2.1, hc2]
  · intro hlt
    have hi : IsInt (o2.usable : Int) := by unfold IsInt; omega
    rw [mem_usage_get_size_free _ hR2.1, hc2, int_of_eq_self hi]

theorem realloc_final_block_witness :
    Ready installed ∧
    ∃ s0 s1 s2, mem_usage_set_ref installed = .ok s0 ∧
      mem_usage_malloc 1 ⟨4096, 24⟩ s0 16 = .ok (4096, s1) ∧
      mem_usage_realloc 1 ⟨8192, 104, false⟩ s1 4096 100 = .ok (8192, s2) ∧
      malloc_usable_size s2.heap 8192 = 104 ∧
      mem_usage_get_size s2 = .ok (int_of (104 : Nat), s2) ∧
      (104 < 2147483648 → mem_usage_get_size s2 = .ok (((104 : Nat) : Int), s2)) :=
  ⟨by decide,
   realloc_final_block 0 ⟨4096, 24⟩ ⟨8192, 104, false⟩ installed 16 100 (by decide) (by decide)
     (by decide) (by decide)⟩

/-! ## Release across a reset -/

/-- C6, as stated, fails for a block above 2 GiB.  A hooked allocate of `2^31`
bytes returns the block 4096 of usable size 2147487728; after a reset, the
hooked release of that block leaves the query at +2147479568, which is neither
negative nor minus the usable size. -/
theorem release_after_reset_negative_counterexample :
    ∃ s1 s2 s3, mem_usage_malloc 1 ⟨4096, 2147487728⟩ installed 2147483648 = .ok (4096, s1) ∧
      malloc_usable_size s1.heap 4096 = 2147487728 ∧
      mem_usage_set_ref s1 = .ok s2 ∧
      mem_usage_free 1 s2 4096 = .ok s3 ∧
      mem_usage_get_size s3 = .ok (2147479568, s3) ∧
      (2147479568 : Int) ≠ -(malloc_usable_size s1.heap 4096 : Int) ∧
      ¬ ((2147479568 : Int) < 0) := by
  refine ⟨_, _, _, mem_usage_malloc_ready 0 _ _ _ (by decide), by decide,
    mem_usage_set_ref_free _ rfl, mem_usage_free_ready 0 _ _ (by decide), ?_, by decide,
    by decide⟩
  exact mem_usage_get_size_free _ rfl

/-- C6, amended: in a well-installed state, for every non-null block returned through
the hooked allocate (any size), the sequence allocate, reset, release of that
block leaves the query equal to the `int` value of minus the block's usable
size `u`; for `u ≤ 2^31` that is exactly `-u`, and for `0 < u ≤ 2^31` it is a
negative value. -/
theorem release_after_reset_negative (fuel : Nat) (o : MallocOutcome) (s : State) (size : Nat)
    (h : Ready s) (hr : o.res ≠ 0) :
    ∃ s1 s2 s3, mem_usage_malloc (fuel + 1) o s size = .ok (o.res, s1) ∧
      malloc_usable_size s1.heap o.res = o.usable ∧
      mem_usage_set_ref s1 = .ok s2 ∧
      mem_usage_free (fuel + 1) s2 o.res = .ok s3 ∧
      mem_usage_get_size s3 = .ok (int_of (-(o.usable : Int)), s3) ∧
      (o.usable ≤ 2147483648 → mem_usage_get_size s3 = .ok (-(o.usable : Int), s3)) ∧
      (0 < o.usable ∧ o.usable ≤ 2147483648 →
        mem_usage_get_size s3 = .ok (-(o.usable : Int), s3) ∧ -(o.usable : Int) < 0) := by
  have hR1 := ready_afterMalloc h o size
  have hR2 := ready_reset hR1
  have hR3 := ready_afterFree hR2 o.res
  have hu : malloc_usable_size (o.heap s.heap) o.res = o.usable := by
    simp [MallocOutcome.heap, hr, malloc_usable_size_insert]
  have hheap : (afterMalloc o s size).heap = o.heap s.heap := rfl
  have hc : (afterFree { afterMalloc o s size with mem_usage_size := 0 } o.res).mem_usage_size
      = int_of (-(o.usable : Int)) := by
    simp only [afterFree, hheap, hu, zero_sub]
  refine ⟨_, _, _, mem_usage_malloc_ready fuel o s size h, ?_,
    mem_usage_set_ref_free _ hR1.1, mem_usage_free_ready fuel _ o.res hR2, ?_, ?_, ?_⟩
  · simpa only [hheap] using hu
  · rw [mem_usage_get_size_free _ hR3.1, hc]
  · intro hle
    have hi : IsInt (-(o.usable : Int)) := by unfold IsInt; omega
    rw [mem_usage_get_size_free _ hR3.1, hc, int_of_eq_self hi]
  · rintro ⟨hpos, hle⟩
    have hi : IsInt (-(o.usable : Int)) := by unfold IsInt; omega
    refine ⟨?_, by omega⟩
    rw [mem_usage_get_size_free _ hR3.1, hc, int_of_eq_self hi]

theorem release_after_reset_negative_witness :
    Ready installed ∧ (4096 : Ptr) ≠ 0 ∧
    ∃ s1 s2 s3, mem_usage_malloc 1 ⟨4096, 112⟩ installed 100 = .ok (4096, s1) ∧
      malloc_usable_size s1.heap 4096 = 112 ∧
      mem_usage_set_ref s1 = .ok s2 ∧
      mem_usage_free 1 s2 4096 = .ok s3 ∧
      mem_usage_get_size s3 = .ok (int_of (-((112 : Nat) : Int)), s3) ∧
      (112 ≤ 2147483648 → mem_usage_get_size s3 = .ok (-((112 : Nat) : Int), s3)) ∧
      (0 < 112 ∧ 112 ≤ 2147483648 →
        mem_usage_get_size s3 = .ok (-((112 : Nat) : Int), s3) ∧ -((112 : Nat) : Int) < 0) :=
  ⟨by decide, by decide,
   release_after_reset_negative 0 ⟨4096, 112⟩ installed 100 (by decide) (by decide)⟩

/-! ## Pass-through of the allocator results -/

/-- C7: in a well-installed state the hooked allocate and the hooked reallocate
each return, make exactly one call to the C library allocator (the log grows by
that one call, with the caller's arguments) and return the very pointer that
call returned; so the hook returns null exactly when the C library did. -/
theorem hooks_pass_through (fuel : Nat) (om : MallocOutcome) (orl : ReallocOutcome) (s : State)
    (size : Nat) (src : Ptr) (newSize : Nat) (h : Ready s) :
    (∃ ret s1, mem_usage_malloc (fuel + 1) om s size = .ok (ret, s1) ∧
        s1.calls = logEvent (atCall s) (.malloc size ret) :: s.calls ∧
        ret = om.res ∧ (ret = 0 ↔ om.res = 0)) ∧
    (∃ ret s1, mem_usage_realloc (fuel + 1) orl s src newSize = .ok (ret, s1) ∧
        s1.calls = logEvent (atCall s) (.realloc src newSize ret) :: s.calls ∧
        ret = orl.res ∧ (ret = 0 ↔ orl.res = 0)) :=
  ⟨⟨_, _, mem_usage_malloc_ready fuel om s size h, rfl, rfl, Iff.rfl⟩,
   ⟨_, _, mem_usage_realloc_ready fuel orl s src newSize h, rfl, rfl, Iff.rfl⟩⟩

theorem hooks_pass_through_witness :
    Ready installed ∧
    (∃ ret s1, mem_usage_malloc 1 ⟨0, 0⟩ installed 100 = .ok (ret, s1) ∧
        s1.calls = logEvent (atCall installed) (.malloc 100 ret) :: installed.calls ∧
        ret = 0 ∧ (ret = 0 ↔ (0 : Ptr) = 0)) ∧
    (∃ ret s1, mem_usage_realloc 1 ⟨8192, 208, false⟩ installed 4096 200 = .ok (ret, s1) ∧
        s1.calls = logEvent (atCall installed) (.realloc 4096 200 ret) :: installed.calls ∧
        ret = 8192 ∧ (ret = 0 ↔ (8192 : Ptr) = 0)) :=
  ⟨by decide, hooks_pass_through 0 ⟨0, 0⟩ ⟨8192, 208, false⟩ installed 100 4096 200 (by decide)⟩

/-! ## The release hook -/

/-- C8, as stated, fails when the difference leaves the range of the 32-bit
counter: from counter 0 the hooked release of the block 4096 of usable size
2147487728 leaves the counter at +2147479568, not at 0 minus the usable
size. -/
theorem mem_usage_free_counter_counterexample :
    ∃ s1, mem_usage_free 1 { installedAt 0 with heap := [(4096, 2147487728)] } 4096 = .ok s1 ∧
      malloc_usable_size [(4096, 2147487728)] 4096 = 2147487728 ∧
      s1.mem_usage_size = 2147479568 ∧
      s1.mem_usage_size
        ≠ (installedAt 0).mem_usage_size - (malloc_usable_size [(4096, 2147487728)] 4096 : Int) :=
  ⟨_, mem_usage_free_ready 0 _ _ (by decide), by decide, by decide, by decide⟩

/-- C8, amended: in a well-installed state the hooked release returns and forwards its
pointer, null included, to the C library's release exactly once; for the null
pointer the counter is unchanged, for a non-null pointer the counter becomes
the `int` difference of its old value and the usable size the block had before
the release (the exact difference whenever that is an `int`). -/
theorem mem_usage_free_counter (fuel : Nat) (s : State) (ptr : Ptr) (h : Ready s)
    (hc : IsInt s.mem_usage_size) :
    ∃ s1, mem_usage_free (fuel + 1) s ptr = .ok s1 ∧
      s1.calls = logEvent (atCall s) (.free ptr) :: s.calls ∧
      (ptr = 0 → s1.mem_usage_size = s.mem_usage_size) ∧
      (ptr ≠ 0 →
        s1.mem_usage_size = int_of (s.mem_usage_size - malloc_usable_size s.heap ptr) ∧
        (IsInt (s.mem_usage_size - malloc_usable_size s.heap ptr) →
          s1.mem_usage_size = s.mem_usage_size - malloc_usable_size s.heap ptr)) := by
  refine ⟨_, mem_usage_free_ready fuel s ptr h, rfl, ?_, ?_⟩
  · intro hp
    subst hp
    simp [afterFree, malloc_usable_size_null, int_of_eq_self hc]
  · intro _
    exact ⟨rfl, fun hi => int_of_eq_self hi⟩

theorem mem_usage_free_counter_witness :
    Ready { installedAt 112 with heap := [(4096, 112)] } ∧
    ∃ s1, mem_usage_free 1 { installedAt 112 with heap := [(4096, 112)] } 4096 = .ok s1 ∧
      s1.mem_usage_size = 0 :=
  ⟨by decide, by
    obtain ⟨s1, h1, -, -, h2⟩ :=
      mem_usage_free_counter 0 { installedAt 112 with heap := [(4096, 112)] } 4096
        (by decide) (by decide)
    exact ⟨s1, h1, by rw [(h2 (by decide)).1]; decide⟩⟩

/-! ## Reallocation failure -/

/-- C9, as stated, fails in two ways.  For the new size 0 the C library's
reallocation returns null after giving the block back (glibc's
`realloc(p, 0)`): the hooked reallocate of the block 4096 of usable size 112
returns null and the block is no longer allocated.  And the difference can
leave the range of the 32-bit counter: from counter -2147483600 a failed
reallocation of that block leaves the counter at +2147483584, not at the
previous value minus 112. -/
theorem mem_usage_realloc_failure_counterexample :
    (∃ s1, mem_usage_realloc 1 ⟨0, 0, true⟩ { installedAt 112 with heap := [(4096, 112)] }
        4096 0 = .ok (0, s1) ∧
      s1.mem_usage_size = 0 ∧ s1.heap.usable? 4096 = none) ∧
    (∃ s1, mem_usage_realloc 1 ⟨0, 0, false⟩
        { installedAt (-2147483600) with heap := [(4096, 112)] } 4096 1000000 = .ok (0, s1) ∧
      s1.heap.usable? 4096 = some 112 ∧
      s1.mem_usage_size = 2147483584 ∧
      s1.mem_usage_size ≠ (installedAt (-2147483600)).mem_usage_size - 112) :=
  ⟨⟨_, mem_usage_realloc_ready 0 _ _ _ _ (by decide), by decide, by decide⟩,
   ⟨_, mem_usage_realloc_ready 0 _ _ _ _ (by decide), by decide, by decide, by decide⟩⟩

/-- C9, amended: in a well-installed state, for every non-null block of usable size `u`
and every new size, when the C library's reallocation returns null the hooked
reallocate returns null and leaves the counter at the `int` value of its old
value minus `u` (exactly that difference whenever it is an `int`); when the
null result is an allocation failure the block is still allocated with usable
size `u`. -/
theorem mem_usage_realloc_failure (fuel : Nat) (o : ReallocOutcome) (s : State) (src : Ptr)
    (size u : Nat) (h : Ready s) (hsrc : src ≠ 0) (hu : s.heap.usable? src = some u)
    (hnull : o.res = 0) :
    ∃ s1, mem_usage_realloc (fuel + 1) o s src size = .ok (0, s1) ∧
      s1.mem_usage_size = int_of (s.mem_usage_size - u) ∧
      (IsInt (s.mem_usage_size - u) → s1.mem_usage_size = s.mem_usage_size - u) ∧
      (o.freed = false → s1.heap.usable? src = some u) := by
  have hsz : malloc_usable_size s.heap src = u := by simp [malloc_usable_size, hsrc, hu]
  have hstep := mem_usage_realloc_ready fuel o s src size h
  rw [hnull] at hstep
  refine ⟨_, hstep, ?_, ?_, ?_⟩
  · simp [afterRealloc, hsz, hnull, malloc_usable_size_null,
      int_of_eq_self (int_of_isInt _)]
  · intro hi
    simp [afterRealloc, hsz, hnull, malloc_usable_size_null, int_of_eq_self (int_of_isInt _),
      int_of_eq_self hi]
  · intro hf
    simp [afterRealloc, ReallocOutcome.heap, hnull, hf, hu]

theorem mem_usage_realloc_failure_witness :
    Ready { installedAt 112 with heap := [(4096, 112)] } ∧
    ∃ s1, mem_usage_realloc 1 ⟨0, 0, false⟩ { installedAt 112 with heap := [(4096, 112)] }
        4096 1000000 = .ok (0, s1) ∧
      s1.mem_usage_size = int_of ((112 : Int) - (112 : Nat)) ∧
      (IsInt ((112 : Int) - (112 : Nat)) → s1.mem_usage_size = (112 : Int) - (112 : Nat)) ∧
      (false = false → s1.heap.usable? 4096 = some 112) :=
  ⟨by decide,
   mem_usage_realloc_failure 0 ⟨0, 0, false⟩ { installedAt 112 with heap := [(4096, 112)] }
     4096 1000000 112 (by decide) (by decide) (by decide) rfl⟩

/-! ## Installation -/

/-- C10, as stated, fails in its second half when the net leaves the range of
the 32-bit counter: right after the initialiser, one hooked allocate of `2^31`
bytes that returns a block of usable size 2147487728 leaves the query at
-2147479568, while the net of the usable sizes added and subtracted since the
installation is 2147487728. -/
theorem initallocstats_installs_counterexample :
    ∃ s1, runHookOps 1 (initallocstats beforeInstall)
        [.malloc 2147483648 ⟨4096, 2147487728⟩] = .ok s1 ∧
      mem_usage_get_size s1 = .ok (-2147479568, s1) ∧
      netUsable beforeInstall.heap [.malloc 2147483648 ⟨4096, 2147487728⟩] = 2147487728 ∧
      (-2147479568 : Int)
        ≠ netUsable beforeInstall.heap [.malloc 2147483648 ⟨4096, 2147487728⟩] := by
  refine ⟨_, rfl, ?_, by decide, by decide⟩
  exact mem_usage_get_size_free _ rfl

/-- C10, amended: the initialiser sets the counter to zero, stores the hook values that
were active right before it as the saved standard triple and makes the three
hooks of this module the active triple; when it runs with the mutex free and
none of this module's hooks active yet, every sequence of hooked calls made
after it without a reset returns, and the query then equals the `int` value of
the net of the usable sizes added and subtracted since the installation
(exactly that net whenever it is an `int`). -/
theorem initallocstats_installs (fuel : Nat) (s : State) :
    (initallocstats s).mem_usage_size = 0 ∧
    (initallocstats s)._std_malloc_func = s.__malloc_hook ∧
    (initallocstats s)._std_realloc_func = s.__realloc_hook ∧
    (initallocstats s)._std_free_func = s.__free_hook ∧
    (initallocstats s).__malloc_hook = .mem_usage_malloc ∧
    (initallocstats s).__realloc_hook = .mem_usage_realloc ∧
    (initallocstats s).__free_hook = .mem_usage_free ∧
    (s.mem_usage_mutex = false → s.__malloc_hook ≠ .mem_usage_malloc →
      s.__realloc_hook ≠ .mem_usage_realloc → s.__free_hook ≠ .mem_usage_free →
      ∀ ops : List HookOp, ∃ s1,
        runHookOps (fuel + 1) (initallocstats s) ops = .ok s1 ∧
        mem_usage_get_size s1 = .ok (int_of (netUsable s.heap ops), s1) ∧
        (IsInt (netUsable s.heap ops) →
          mem_usage_get_size s1 = .ok (netUsable s.heap ops, s1))) := by
  refine ⟨rfl, rfl, rfl, rfl, rfl, rfl, rfl, ?_⟩
  intro hm h1 h2 h3 ops
  have hr : Ready (initallocstats s) := ⟨hm, h1, h2, h3⟩
  obtain ⟨s1, hrun, hr1, hcnt⟩ := runHookOps_net fuel ops (initallocstats s) hr
    (show IsInt 0 by decide)
  have hcnt2 : s1.mem_usage_size = int_of (netUsable s.heap ops) := by
    rw [hcnt]
    have h0 : (initallocstats s).mem_usage_size = 0 := rfl
    have hh : (initallocstats s).heap = s.heap := rfl
    rw [h0, hh, zero_add]
  refine ⟨s1, hrun, ?_, ?_⟩
  · rw [mem_usage_get_size_free _ hr1.1, hcnt2]
  · intro hi
    rw [mem_usage_get_size_free _ hr1.1, hcnt2, int_of_eq_self hi]

theorem initallocstats_installs_witness :
    (initallocstats beforeInstall)._std_malloc_func = .std 1 ∧
    ∃ s1, runHookOps 1 (initallocstats beforeInstall)
        [.malloc 100 ⟨4096, 112⟩, .realloc 4096 200 ⟨8192, 208, false⟩, .malloc 0 ⟨12288, 24⟩,
         .free 12288] = .ok s1 ∧
      mem_usage_get_size s1 = .ok (184, s1) := by
  obtain ⟨-, h1, -, -, -, -, -, h⟩ := initallocstats_installs 0 beforeInstall
  obtain ⟨s1, hrun, hq, -⟩ := h (by decide) (by decide) (by decide) (by decide)
    [.malloc 100 ⟨4096, 112⟩, .realloc 4096 200 ⟨8192, 208, false⟩, .malloc 0 ⟨12288, 24⟩,
     .free 12288]
  refine ⟨h1, s1, hrun, ?_⟩
  rw [hq]
  rfl

/-! ## Reachable states -/

theorem ready_initallocstats {s : State} (h : NotInstalled s) : Ready (initallocstats s) :=
  ⟨h.1, h.2.1, h.2.2.1, h.2.2.2⟩

theorem stepApiOp_ready (fuel : Nat) (s : State) (op : ApiOp) (h : Ready s) :
    stepApiOp (fuel + 1) s op = .ok (afterApiOp s op) := by
  cases op with
  | hook op => exact stepHookOp_ready fuel s op h
  | reset => exact mem_usage_set_ref_free s h.1
  | query => simp [stepApiOp, afterApiOp, mem_usage_get_size_free s h.1]

/-- What every call of the interface leaves as it found it, in a well-installed
state: the freedom of the mutex, the saved standard triple, and with them the
well-installedness; the active triple is this module's own after a hooked
call. -/
theorem afterApiOp_frame (s : State) (op : ApiOp) (h : Ready s) :
    Ready (afterApiOp s op) ∧
    (afterApiOp s op)._std_malloc_func = s._std_malloc_func ∧
    (afterApiOp s op)._std_realloc_func = s._std_realloc_func ∧
    (afterApiOp s op)._std_free_func = s._std_free_func := by
  cases op with
  | hook op =>
    cases op with
    | malloc size o => exact ⟨ready_afterMalloc h o size, rfl, rfl, rfl⟩
    | realloc src size o => exact ⟨ready_afterRealloc h o src size, rfl, rfl, rfl⟩
    | free ptr => exact ⟨ready_afterFree h ptr, rfl, rfl, rfl⟩
  | reset => exact ⟨ready_reset h, rfl, rfl, rfl⟩
  | query => exact ⟨h, rfl, rfl, rfl⟩

/-- Every sequence of calls of the interface returns from a well-installed
state, in a well-installed state with the same saved standard triple. -/
theorem runApiOps_ready (fuel : Nat) :
    ∀ (ops : List ApiOp) (s : State), Ready s →
      ∃ s1, runApiOps (fuel + 1) s ops = .ok s1 ∧ Ready s1 ∧
        s1._std_malloc_func = s._std_malloc_func ∧
        s1._std_realloc_func = s._std_realloc_func ∧
        s1._std_free_func = s._std_free_func := by
  intro ops
  induction ops with
  | nil => intro s h; exact ⟨s, rfl, h, rfl, rfl, rfl⟩
  | cons op ops ih =>
    intro s h
    obtain ⟨hr, e1, e2, e3⟩ := afterApiOp_frame s op h
    obtain ⟨s1, hrun, hr1, f1, f2, f3⟩ := ih (afterApiOp s op) hr
    refine ⟨s1, ?_, hr1, f1.trans e1, f2.trans e2, f3.trans e3⟩
    simp only [runApiOps, stepApiOp_ready fuel s op h]
    exact hrun

theorem afterHookOp_calls (s : State) (op : HookOp) :
    (afterHookOp s op).calls = logEvent (atCall s) op.call :: s.calls ∧
    (afterHookOp s op).__malloc_hook = .mem_usage_malloc ∧
    (afterHookOp s op).__realloc_hook = .mem_usage_realloc ∧
    (afterHookOp s op).__free_hook = .mem_usage_free := by
  cases op <;> exact ⟨rfl, rfl, rfl, rfl⟩

theorem netUsable_eq (h : Heap) (ops : List HookOp) :
    netUsable h ops = (totalAdded h ops : Int) - (totalSubtracted h ops : Int) := by
  induction ops generalizing h with
  | nil => simp [netUsable, totalAdded, totalSubtracted]
  | cons op ops ih =>
    simp only [netUsable, totalAdded, totalSubtracted, ih]
    push_cast
    ring

/-- The hook `mem_usage_malloc` is its first part followed by its rest. -/
theorem mem_usage_malloc_split (fuel : Nat) (o : MallocOutcome) (s : State) (size : Nat) :
    mem_usage_malloc (fuel + 1) o s size =
      match hook_enter s with
      | .error e => .error e
      | .ok s2 => mem_usage_malloc_rest fuel o s2 size := by
  unfold hook_enter
  rw [mem_usage_malloc]
  cases pthread_mutex_lock s <;> rfl

/-! ## The query and the reset change nothing else -/

/-- C11: in every state with the mutex free the query returns the current
counter value and leaves the whole state as it was (counter, active hooks,
saved triple and mutex included), so a second query returns the same value;
the reset returns and changes nothing but the counter, which it sets to 0. -/
theorem query_reset_frame (s : State) (h : s.mem_usage_mutex = false) :
    mem_usage_get_size s = .ok (s.mem_usage_size, s) ∧
    (∃ v1 s1 v2 s2, mem_usage_get_size s = .ok (v1, s1) ∧
      mem_usage_get_size s1 = .ok (v2, s2) ∧ v1 = v2 ∧ s2 = s) ∧
    (∃ s1, mem_usage_set_ref s = .ok s1 ∧ s1 = { s with mem_usage_size := 0 } ∧
      s1.mem_usage_mutex = s.mem_usage_mutex ∧
      s1._std_malloc_func = s._std_malloc_func ∧
      s1._std_realloc_func = s._std_realloc_func ∧
      s1._std_free_func = s._std_free_func ∧
      s1.__malloc_hook = s.__malloc_hook ∧ s1.__realloc_hook = s.__realloc_hook ∧
      s1.__free_hook = s.__free_hook ∧ s1.heap = s.heap ∧ s1.calls = s.calls) := by
  have hq := mem_usage_get_size_free s h
  exact ⟨hq, ⟨_, _, _, _, hq, hq, rfl, rfl⟩,
    ⟨_, mem_usage_set_ref_free s h, rfl, rfl, rfl, rfl, rfl, rfl, rfl, rfl, rfl, rfl⟩⟩

theorem query_reset_frame_witness :
    (installedAt 4242).mem_usage_mutex = false ∧
    mem_usage_get_size (installedAt 4242) = .ok (4242, installedAt 4242) ∧
    mem_usage_set_ref (installedAt 4242) = .ok (installedAt 0) := by
  obtain ⟨hq, -, s1, hs, hs1, -⟩ := query_reset_frame (installedAt 4242) (by decide)
  refine ⟨by decide, hq, ?_⟩
  rw [hs, hs1]
  rfl

/-! ## Two threads, one allocate/release cycle each -/

/-- C12 fails on this schedule of two threads that each run one
allocate/release cycle of 100 bytes, from counter 0.  Thread A enters
`mem_usage_malloc`, takes the mutex and puts the standard hooks back.  Thread B
now calls `malloc(100)`: the hook variable holds the standard function, so the
call goes straight to the C library, takes no mutex and is not counted.  A
finishes its allocation (counter 112) and releases its block (counter 0).  B
releases its block through the hook, which subtracts 112: with every block
released the query returns -112, not the value 0 it had before. -/
theorem two_threads_lost_update :
    ∃ a1 a2 a3 a4 a5,
      hook_enter (installedAt 0) = .ok a1 ∧
      a1.mem_usage_mutex = true ∧ a1.__malloc_hook = (installedAt 0)._std_malloc_func ∧
      malloc (mem_usage_malloc 1) ⟨8192, 112⟩ a1 100 = .ok (8192, a2) ∧
      a2.mem_usage_size = a1.mem_usage_size ∧ malloc_usable_size a2.heap 8192 = 112 ∧
      mem_usage_malloc_rest 1 ⟨4096, 112⟩ a2 100 = .ok (4096, a3) ∧
      a3.mem_usage_size = 112 ∧ a3.mem_usage_mutex = false ∧
      free (mem_usage_free 1) a3 4096 = .ok a4 ∧ a4.mem_usage_size = 0 ∧
      free (mem_usage_free 1) a4 8192 = .ok a5 ∧ a5.heap = [] ∧
      mem_usage_get_size a5 = .ok (-112, a5) ∧
      (-112 : Int) ≠ (installedAt 0).mem_usage_size := by
  refine ⟨_, _, _, _, _, rfl, rfl, rfl, rfl, rfl, by decide, rfl, by decide, rfl, rfl,
    by decide, rfl, by decide, ?_, by decide⟩
  exact mem_usage_get_size_free _ rfl

/-! ## The hook variables around the allocator call -/

/-- C13: after the initialiser ran in a process where none of this module's
hooks was active, and after any sequence of calls of the interface, every
hooked allocate, reallocate or release returns (whatever the C library answers
and whatever size or pointer is passed, zero and null included), makes its
allocator call with the active hook triple equal to the saved standard triple,
and returns with the module's own three hooks active again. -/
theorem hook_table_invariant (fuel : Nat) (s0 : State) (ops : List ApiOp) (op : HookOp)
    (h : NotInstalled s0) :
    ∃ s s1 e, runApiOps (fuel + 1) (initallocstats s0) ops = .ok s ∧
      stepHookOp (fuel + 1) s op = .ok s1 ∧
      s1.calls = e :: s.calls ∧ e.call = op.call ∧
      e.malloc_hook = s._std_malloc_func ∧ e.realloc_hook = s._std_realloc_func ∧
      e.free_hook = s._std_free_func ∧
      s._std_malloc_func = s0.__malloc_hook ∧ s._std_realloc_func = s0.__realloc_hook ∧
      s._std_free_func = s0.__free_hook ∧
      s1.__malloc_hook = .mem_usage_malloc ∧ s1.__realloc_hook = .mem_usage_realloc ∧
      s1.__free_hook = .mem_usage_free := by
  obtain ⟨s, hrun, hr, f1, f2, f3⟩ :=
    runApiOps_ready fuel ops (initallocstats s0) (ready_initallocstats h)
  obtain ⟨hc, h1, h2, h3⟩ := afterHookOp_calls s op
  exact ⟨s, afterHookOp s op, logEvent (atCall s) op.call, hrun, stepHookOp_ready fuel s op hr,
    hc, rfl, rfl, rfl, rfl, f1, f2, f3, h1, h2, h3⟩

theorem hook_table_invariant_witness :
    NotInstalled beforeInstall ∧
    ∃ s s1 e,
      runApiOps 1 (initallocstats beforeInstall)
        [.hook (.malloc 100 ⟨4096, 112⟩), .reset, .query] = .ok s ∧
      stepHookOp 1 s (.realloc 4096 0 ⟨0, 0, true⟩) = .ok s1 ∧
      s1.calls = e :: s.calls ∧ e.call = (HookOp.realloc 4096 0 ⟨0, 0, true⟩).call ∧
      e.malloc_hook = s._std_malloc_func ∧ e.realloc_hook = s._std_realloc_func ∧
      e.free_hook = s._std_free_func ∧
      s._std_malloc_func = beforeInstall.__malloc_hook ∧
      s._std_realloc_func = beforeInstall.__realloc_hook ∧
      s._std_free_func = beforeInstall.__free_hook ∧
      s1.__malloc_hook = .mem_usage_malloc ∧ s1.__realloc_hook = .mem_usage_realloc ∧
      s1.__free_hook = .mem_usage_free :=
  ⟨by decide,
   hook_table_invariant 0 beforeInstall [.hook (.malloc 100 ⟨4096, 112⟩), .reset, .query]
     (.realloc 4096 0 ⟨0, 0, true⟩) (by decide)⟩

/-! ## The mutex -/

/-- C15: in a well-installed state every sequence of hooked allocate,
reallocate and release calls, resets and queries returns, whatever the
arguments and whatever the C library answers, and leaves the saved standard
triple exactly as it was; the initialiser is the only function that assigns
it. -/
theorem saved_triple_unchanged (fuel : Nat) (s : State) (ops : List ApiOp) (h : Ready s) :
    ∃ s1, runApiOps (fuel + 1) s ops = .ok s1 ∧
      s1._std_malloc_func = s._std_malloc_func ∧
      s1._std_realloc_func = s._std_realloc_func ∧
      s1._std_free_func = s._std_free_func := by
  obtain ⟨s1, hrun, -, f1, f2, f3⟩ := runApiOps_ready fuel ops s h
  exact ⟨s1, hrun, f1, f2, f3⟩

theorem saved_triple_unchanged_witness :
    Ready installed ∧
    ∃ s1,
      runApiOps 1 installed
        [.hook (.malloc 0 ⟨4096, 24⟩), .hook (.realloc 4096 64 ⟨0, 0, false⟩), .reset,
         .hook (.free 4096), .query] = .ok s1 ∧
      s1._std_malloc_func = installed._std_malloc_func ∧
      s1._std_realloc_func = installed._std_realloc_func ∧
      s1._std_free_func = installed._std_free_func :=
  ⟨by decide,
   saved_triple_unchanged 0 installed
     [.hook (.malloc 0 ⟨4096, 24⟩), .hook (.realloc 4096 64 ⟨0, 0, false⟩), .reset,
      .hook (.free 4096), .query] (by decide)⟩

/-! ## The reallocation hook -/

/-- C16, as stated, fails when the result leaves the range of the 32-bit
counter: from counter 104 the hooked reallocate of the block 4096 of usable
size 104 to `2^31` bytes, which returns the block 8192 of usable size
2147487728, leaves the counter at -2147479568; the counter has not changed by
2147487728 minus 104. -/
theorem mem_usage_realloc_counter_counterexample :
    ∃ s1, mem_usage_realloc 1 ⟨8192, 2147487728, false⟩
        { installedAt 104 with heap := [(4096, 104)] } 4096 2147483648 = .ok (8192, s1) ∧
      malloc_usable_size [(4096, 104)] 4096 = 104 ∧
      malloc_usable_size s1.heap 8192 = 2147487728 ∧
      s1.mem_usage_size = -2147479568 ∧
      s1.mem_usage_size - (installedAt 104).mem_usage_size
        ≠ (malloc_usable_size s1.heap 8192 : Int) - (malloc_usable_size [(4096, 104)] 4096 : Int) :=
  ⟨_, mem_usage_realloc_ready 0 _ _ _ _ (by decide), by decide, by decide, by decide,
    by decide⟩

/-- C16, amended: in a well-installed state the hooked reallocate returns the C
library's result, and the counter becomes the `int` value of its old value
plus the usable size of the result (0 for a null result) minus the usable size
the input block had before the call (0 for a null pointer), exactly that value
whenever it is an `int`; with a null pointer nothing is subtracted. -/
theorem mem_usage_realloc_counter (fuel : Nat) (o : ReallocOutcome) (s : State) (src : Ptr)
    (size : Nat) (h : Ready s) :
    ∃ s1, mem_usage_realloc (fuel + 1) o s src size = .ok (o.res, s1) ∧
      (o.res ≠ 0 → malloc_usable_size s1.heap o.res = o.usable) ∧
      s1.mem_usage_size =
        int_of (s.mem_usage_size
          + ((if o.res ≠ 0 then malloc_usable_size s1.heap o.res else 0 : Nat) : Int)
          - ((if src ≠ 0 then malloc_usable_size s.heap src else 0 : Nat) : Int)) ∧
      (IsInt (s.mem_usage_size
          + ((if o.res ≠ 0 then malloc_usable_size s1.heap o.res else 0 : Nat) : Int)
          - ((if src ≠ 0 then malloc_usable_size s.heap src else 0 : Nat) : Int)) →
        s1.mem_usage_size = s.mem_usage_size
          + ((if o.res ≠ 0 then malloc_usable_size s1.heap o.res else 0 : Nat) : Int)
          - ((if src ≠ 0 then malloc_usable_size s.heap src else 0 : Nat) : Int)) ∧
      (src = 0 → s1.mem_usage_size =
        int_of (s.mem_usage_size
          + ((if o.res ≠ 0 then malloc_usable_size s1.heap o.res else 0 : Nat) : Int))) := by
  have hin : (if src ≠ 0 then malloc_usable_size s.heap src else 0)
      = malloc_usable_size s.heap src := by
    by_cases hs : src = 0
    · simp [hs, malloc_usable_size_null]
    · simp [hs]
  have hout : (if o.res ≠ 0 then malloc_usable_size (o.heap s.heap src) o.res else 0)
      = malloc_usable_size (o.heap s.heap src) o.res := by
    by_cases hr : o.res = 0
    · simp [hr, malloc_usable_size_null]
    · simp [hr]
  have hheap : (afterRealloc o s src size).heap = o.heap s.heap src := rfl
  have hcnt : (afterRealloc o s src size).mem_usage_size
      = int_of (s.mem_usage_size + (malloc_usable_size (o.heap s.heap src) o.res : Int)
          - (malloc_usable_size s.heap src : Int)) := by
    simp only [afterRealloc, int_of_add_int_of]
    congr 1
    ring
  refine ⟨_, mem_usage_realloc_ready fuel o s src size h, ?_, ?_, ?_, ?_⟩
  · intro hr
    simp [afterRealloc, ReallocOutcome.heap, hr, malloc_usable_size_insert]
  · rw [hheap, hin, hout, hcnt]
  · rw [hheap, hin, hout, hcnt]
    exact fun hi => int_of_eq_self hi
  · intro hs
    rw [hheap, hout, hcnt, hs, malloc_usable_size_null]
    simp

theorem mem_usage_realloc_counter_witness :
    Ready { installedAt 112 with heap := [(4096, 112)] } ∧
    ∃ s1, mem_usage_realloc 1 ⟨8192, 208, false⟩
        { installedAt 112 with heap := [(4096, 112)] } 4096 200 = .ok (8192, s1) ∧
      s1.mem_usage_size = 208 := by
  obtain ⟨s1, hrun, hu, hc, -⟩ := mem_usage_realloc_counter 0 ⟨8192, 208, false⟩
    { installedAt 112 with heap := [(4096, 112)] } 4096 200 (by decide)
  refine ⟨by decide, s1, hrun, ?_⟩
  have h1 : malloc_usable_size s1.heap 8192 = 208 := hu (by decide)
  rw [hc]
  simp only [h1]
  decide

/-! ## The counter is a 32-bit `int` -/

theorem int_of_congr (z : Int) : (int_of z - z) % 4294967296 = 0 := by
  unfold int_of; omega

/-- C17: in a well-installed state, after a reset and any sequence of hooked
calls, the sequence returns and the query is a 32-bit signed value, in
`[-2^31, 2^31 - 1]`, congruent modulo `2^32` to the sum of the usable sizes
added minus the sum of the usable sizes subtracted; it equals that net exactly
when the net lies in `[-2^31, 2^31 - 1]`. -/
theorem counter_wraps (fuel : Nat) (s : State) (ops : List HookOp) (h : Ready s) :
    ∃ s0 s1 q, mem_usage_set_ref s = .ok s0 ∧ runHookOps (fuel + 1) s0 ops = .ok s1 ∧
      mem_usage_get_size s1 = .ok (q, s1) ∧
      -2147483648 ≤ q ∧ q ≤ 2147483647 ∧
      (q - ((totalAdded s.heap ops : Int) - (totalSubtracted s.heap ops : Int)))
        % 4294967296 = 0 ∧
      (q = (totalAdded s.heap ops : Int) - (totalSubtracted s.heap ops : Int) ↔
        (-2147483648 ≤ (totalAdded s.heap ops : Int) - (totalSubtracted s.heap ops : Int) ∧
         (totalAdded s.heap ops : Int) - (totalSubtracted s.heap ops : Int) ≤ 2147483647)) := by
  obtain ⟨s1, hrun, hr1, hcnt⟩ := runHookOps_net fuel ops { s with mem_usage_size := 0 }
    (ready_reset h) (show IsInt 0 by decide)
  have hq : s1.mem_usage_size
      = int_of ((totalAdded s.heap ops : Int) - (totalSubtracted s.heap ops : Int)) := by
    rw [hcnt, ← netUsable_eq]
    simp
  have hi := int_of_isInt ((totalAdded s.heap ops : Int) - (totalSubtracted s.heap ops : Int))
  refine ⟨_, s1, s1.mem_usage_size, mem_usage_set_ref_free s h.1, hrun,
    mem_usage_get_size_free _ hr1.1, ?_, ?_, ?_, ?_⟩
  · rw [hq]; exact hi.1
  · rw [hq]; have := hi.2; omega
  · rw [hq]; exact int_of_congr _
  · rw [hq]
    constructor
    · intro he
      rw [he] at hi
      exact ⟨hi.1, by have := hi.2; omega⟩
    · rintro ⟨h1, h2⟩
      exact int_of_eq_self ⟨h1, by omega⟩

theorem counter_wraps_witness :
    Ready installed ∧
    ∃ s0 s1 q, mem_usage_set_ref installed = .ok s0 ∧
      runHookOps 1 s0 [.malloc 2147483648 ⟨4096, 2147483664⟩, .malloc 8 ⟨8192, 24⟩] = .ok s1 ∧
      mem_usage_get_size s1 = .ok (q, s1) ∧ q = -2147483608 := by
  obtain ⟨s0, s1, q, h0, hrun, hq, -, -, -, -⟩ := counter_wraps 0 installed
    [.malloc 2147483648 ⟨4096, 2147483664⟩, .malloc 8 ⟨8192, 24⟩] (by decide)
  refine ⟨by decide, s0, s1, q, h0, hrun, hq, ?_⟩
  rw [mem_usage_set_ref_free installed rfl] at h0
  cases h0
  cases hrun
  rw [mem_usage_get_size_free _ rfl] at hq
  cases hq
  decide

/-! ## Reallocation of the null pointer against allocation -/

/-- C18: in a well-installed state with an `int` counter, for every size
`n > 0` and every answer of the C library with the same result block, the
hooked reallocate of the null pointer and the hooked allocate return the same
pointer and leave the counter at the same value.  For `n = 0` they can differ:
from counter 0, with the non-null result 4096 of usable size 24, the hooked
allocate leaves the counter at 0 and the hooked reallocate of null leaves it
at 24. -/
theorem realloc_null_agrees_with_malloc (fuel : Nat) (om : MallocOutcome) (orl : ReallocOutcome)
    (s : State) (n : Nat) (h : Ready s) (hc : IsInt s.mem_usage_size) (hn : 0 < n)
    (hres : orl.res = om.res) (hus : orl.usable = om.usable) :
    (∃ p s1 s2, mem_usage_malloc (fuel + 1) om s n = .ok (p, s1) ∧
      mem_usage_realloc (fuel + 1) orl s 0 n = .ok (p, s2) ∧
      s1.mem_usage_size = s2.mem_usage_size) ∧
    (∃ s1 s2, mem_usage_malloc 1 ⟨4096, 24⟩ (installedAt 0) 0 = .ok (4096, s1) ∧
      mem_usage_realloc 1 ⟨4096, 24, false⟩ (installedAt 0) 0 0 = .ok (4096, s2) ∧
      s1.mem_usage_size = 0 ∧ s2.mem_usage_size = 24) := by
  refine ⟨⟨om.res, afterMalloc om s n, afterRealloc orl s 0 n,
      mem_usage_malloc_ready fuel om s n h, ?_, ?_⟩,
    ⟨_, _, mem_usage_malloc_ready 0 _ _ _ (by decide),
      mem_usage_realloc_ready 0 _ _ _ _ (by decide), by decide, by decide⟩⟩
  · rw [← hres]
    exact mem_usage_realloc_ready fuel orl s 0 n h
  · have hn0 : n ≠ 0 := by omega
    by_cases hr : om.res = 0
    · have hr2 : orl.res = 0 := hres.trans hr
      simp [afterMalloc, afterRealloc, mallocCount, hr, hr2, malloc_usable_size_null,
        int_of_eq_self hc]
    · have hr2 : orl.res ≠ 0 := fun e => hr (hres ▸ e)
      have hu1 : malloc_usable_size (om.heap s.heap) om.res = om.usable := by
        simp [MallocOutcome.heap, hr, malloc_usable_size_insert]
      have hu2 : malloc_usable_size (orl.heap s.heap 0) orl.res = om.usable := by
        simp [ReallocOutcome.heap, hr2, malloc_usable_size_insert, hus]
      simp [afterMalloc, afterRealloc, mallocCount, hr, hn0, hu1, hu2,
        malloc_usable_size_null, int_of_eq_self hc]

theorem realloc_null_agrees_with_malloc_witness :
    Ready (installedAt 7) ∧ IsInt (installedAt 7).mem_usage_size ∧
    ((∃ p s1 s2, mem_usage_malloc 1 ⟨4096, 112⟩ (installedAt 7) 100 = .ok (p, s1) ∧
      mem_usage_realloc 1 ⟨4096, 112, false⟩ (installedAt 7) 0 100 = .ok (p, s2) ∧
      s1.mem_usage_size = s2.mem_usage_size) ∧
    (∃ s1 s2, mem_usage_malloc 1 ⟨4096, 24⟩ (installedAt 0) 0 = .ok (4096, s1) ∧
      mem_usage_realloc 1 ⟨4096, 24, false⟩ (installedAt 0) 0 0 = .ok (4096, s2) ∧
      s1.mem_usage_size = 0 ∧ s2.mem_usage_size = 24)) :=
  ⟨by decide, by decide,
   realloc_null_agrees_with_malloc 0 ⟨4096, 112⟩ ⟨4096, 112, false⟩ (installedAt 7) 100
     (by decide) (by decide) (by decide) rfl rfl⟩

end AllocStats
